import Mathlib

/-
  Verification of the GEDCOM-Reader parse engine (src/src/parse_engine.py,
  src/src/utils.py, src/src/enums.py, src/src/entity.py, src/src/file.py).

  The Python code is shallowly embedded: the mutable ParseEngine instance
  becomes an explicit `Engine` state threaded through every function, Python
  `str` becomes `String` (manipulated through executable helpers mirroring the
  Python string methods), and fallible functions return `PyResult` where
  `.none` models `return None`, and `.crash` models an uncaught Python
  exception (IndexError / TypeError / AttributeError).

  Python object identity: `parse_raw_line` registers the freshly created
  Record object in the cross-reference table and the INDI/FAM/HEAD buckets,
  and the hierarchy builder later mutates that same object by appending
  children.  Functionally we key those registrations by the 1-based line
  number of the record (which, as proved below in `preorder_data_eq`, equals
  the record's position in a pre-order traversal of the final forest), and
  resolve them through `nodeAt`.  The back-pointer `record.individual` set by
  `parse_indi_records` becomes the map `Engine.indiBuilt`, keyed the same way.

  The single `_error` slot keeps Python's overwrite semantics (`error`), and
  `errorWrites` additionally counts how many times the slot was ever
  assigned, so that the "first writer wins" discipline is a provable
  statement (`errorWrites ≤ 1`).
-/

/-! ## Python string primitives (ASCII fragment, structurally recursive) -/

/-- Characters Python `str.split()` treats as separators (ASCII fragment). -/
def isSpaceChar (c : Char) : Bool :=
  c == ' ' || c == '\t' || c == '\n' || c == '\r' || c == '\x0b' || c == '\x0c'

/-- Worker for `pySplit`: `cur` is the reversed current word. -/
def splitWsAux : List Char → List Char → List String
  | cur, [] => if cur.isEmpty then [] else [String.mk cur.reverse]
  | cur, c :: cs =>
    if isSpaceChar c then
      if cur.isEmpty then splitWsAux [] cs
      else String.mk cur.reverse :: splitWsAux [] cs
    else splitWsAux (c :: cur) cs

/-- Python `str.split()` (split on whitespace runs, no empty words). -/
def pySplit (s : String) : List String := splitWsAux [] s.toList

/-- Worker for `pySplitComma`. -/
def splitCommaChars : List Char → List (List Char)
  | [] => [[]]
  | c :: cs =>
    if c == ',' then [] :: splitCommaChars cs
    else
      match splitCommaChars cs with
      | w :: ws => (c :: w) :: ws
      | [] => [[c]]

/-- Python `str.split(',')` (keeps empty pieces). -/
def pySplitComma (s : String) : List String :=
  (splitCommaChars s.toList).map String.mk

/-- Worker for `pySplitSlash`. -/
def splitSlashChars : List Char → List (List Char)
  | [] => [[]]
  | c :: cs =>
    if c == '/' then [] :: splitSlashChars cs
    else
      match splitSlashChars cs with
      | w :: ws => (c :: w) :: ws
      | [] => [[c]]

/-- Python `str.split('/')` (keeps empty pieces). -/
def pySplitSlash (s : String) : List String :=
  (splitSlashChars s.toList).map String.mk

/-- Python `str.upper()` (ASCII fragment). -/
def pyUpper (s : String) : String := String.mk (s.toList.map Char.toUpper)

/-- Python `str.rstrip('.')`. -/
def pyRstripDot (s : String) : String :=
  String.mk ((s.toList.reverse.dropWhile (· == '.')).reverse)

/-- Python `str.strip('.')`. -/
def pyStripDot (s : String) : String :=
  String.mk (((s.toList.dropWhile (· == '.')).reverse.dropWhile (· == '.')).reverse)

/-- Python `str.lstrip()` (strip leading whitespace). -/
def pyLstrip (s : String) : String := String.mk (s.toList.dropWhile isSpaceChar)

/-- Python `str.count(c)` for a single character. -/
def pyCountChar (c : Char) (s : String) : Nat := s.toList.count c

/-- Python `str.index(c)`: position of the first occurrence. -/
def pyIndexChar (c : Char) (s : String) : Option Nat :=
  s.toList.findIdx? (· == c)

/-- Python `str.rindex(c)`: position of the last occurrence. -/
def pyRindexChar (c : Char) (s : String) : Option Nat :=
  match (s.toList.reverse.findIdx? (· == c)) with
  | some i => some (s.toList.length - 1 - i)
  | none => none

/-- `s[0:n]` on character lists. -/
def pySlice (s : String) (n : Nat) : String := String.mk (s.toList.take n)

/-- Worker for `pyReplace`; fuel-driven so it reduces by `rfl`.  Replaces
left-to-right non-overlapping occurrences like Python `str.replace`. -/
def replaceFuel (pat repl : List Char) : Nat → List Char → List Char
  | 0, l => l
  | _ + 1, [] => []
  | fuel + 1, c :: cs =>
    if pat ≠ [] && pat.isPrefixOf (c :: cs) then
      repl ++ replaceFuel pat repl fuel ((c :: cs).drop pat.length)
    else
      c :: replaceFuel pat repl fuel cs

/-- Python `s.replace(pat, repl)` (pattern nonempty in all uses here). -/
def pyReplace (s pat repl : String) : String :=
  String.mk (replaceFuel pat.toList repl.toList (s.toList.length + 1) s.toList)

/-- Substring search on character lists. -/
def isInfixOfChars (pat : List Char) : List Char → Bool
  | [] => pat.isEmpty
  | c :: cs => pat.isPrefixOf (c :: cs) || isInfixOfChars pat cs

/-- Python `sub in s` (substring containment). -/
def pyContains (s sub : String) : Bool := isInfixOfChars sub.toList s.toList

/-- Python `str.isdigit()` (ASCII fragment). -/
def pyIsDigit (s : String) : Bool := !s.toList.isEmpty && s.toList.all Char.isDigit

/-- Python `int()` on a digit-validated string. -/
def pyInt (s : String) : Nat := s.toList.foldl (fun a c => a * 10 + (c.toNat - 48)) 0

/-- Python `str.isalnum()` for one character (ASCII fragment). -/
def pyIsAlnumChar (c : Char) : Bool := c.isAlpha || c.isDigit

/-! ## enums.py: the fixed string sets (StrEnum values, Python 3.12 `in`
semantics: membership of the value). -/

/-- enums.Tag: every member value, including the nonstandard SSN and FSID. -/
def tagValues : List String :=
  ["GEDC", "HEAD", "TRLR", "VERS", "DEST", "SOUR", "CORP", "DATA", "DATE",
   "COMM", "COPR", "TIME", "LANG", "SUBM", "SUBN", "FILE", "NOTE", "FAM",
   "HUSB", "WIFE", "MARR", "CHIL", "NCHI", "REFN", "TYPE", "FONE", "RIN",
   "INDI", "SEX", "OBJE", "TITL", "REPO", "PLAC", "AGNC", "AUTH", "ABBR",
   "TEXT", "ADDR", "ADR1", "ADR2", "ADR3", "CITY", "STAE", "POST", "COUN",
   "PHON", "EMAIL", "FAX", "WWW", "ASSOC", "RELA", "CHAN", "FAMC", "PEDI",
   "CAUS", "AGE", "ANUL", "CENS", "DIV", "DIVF", "ENGA", "MARB", "MARC",
   "MARL", "MARS", "RESI", "EVEN", "CAST", "DESC", "EDUC", "IDNO", "NATI",
   "NAME", "RELN", "OCCU", "POSS", "RELI", "FACT", "BIRT", "CHR", "DEAT",
   "BURI", "CREM", "ADOP", "BAPM", "BARM", "BASM", "CHRA", "CONF", "CONT",
   "FCOM", "NATU", "EMIG", "IMMI", "PROB", "WILL", "GRAD", "RETI", "NPFX",
   "GIVN", "NICK", "SPFX", "SURN", "NSFX", "ROMN", "MAP", "LATI", "LONG",
   "PAGE", "ROLE", "CERT", "MEDI", "FAMS", "CHAR", "FORM", "CTRY", "CONC",
   "PUBL", "ALIA", "RESN", "BLES", "ORDN", "SSN", "FSID"]

/-- enums.ObsoleteTag member values. -/
def obsoleteTagValues : List String := ["SSN", "FSID"]

/-- enums.Month member values. -/
def monthValues : List String :=
  ["JAN", "FEB", "MAR", "APR", "MAY", "JUN", "JUL", "AUG", "SEP", "OCT",
   "NOV", "DEC"]

/-- enums.CalendarType member values. -/
def calendarTypeValues : List String :=
  ["@#DGREGORIAN@", "@#DJULIAN@", "@#DHEBREW@", "@#DFRENCH R@", "@#DROMAN@",
   "@#DUNKNOWN@"]

/-- enums.DatePeriod member values. -/
def datePeriodValues : List String := ["FROM", "TO"]

/-- enums.DateRange member values (NONE is the empty string). -/
def dateRangeValues : List String := ["", "BEF", "AFT", "BET"]

/-- enums.DateApproximated member values (NONE is the empty string). -/
def dateApproximatedValues : List String := ["", "ABT", "CAL", "EST"]

/-- enums.Sex member values. -/
def sexValues : List String := ["M", "F", "U"]

/-- enums.Restriction member values (NONE is the empty string). -/
def restrictionValues : List String := ["", "privacy", "confidential", "locked"]

/-- enums.NameType member values. -/
def nameTypeValues : List String :=
  ["main", "aka", "birth", "immigrant", "maiden", "married"]

/-- enums.PhoneticType member values (NONE is the empty string). -/
def phoneticTypeValues : List String := ["", "hangul", "kana"]

/-- enums.RomanizedType member values (NONE is the empty string). -/
def romanizedTypeValues : List String := ["", "pinyin", "romaji", "wadegiles"]

/-- enums.Form member values. -/
def formValues : List String := ["LINEAGE-LINKED"]

/-- enums.event_type_individual: tag value to explicit event type. -/
def eventTypeIndividual : List (String × String) :=
  [("EVEN", ""), ("BIRT", "Birth"), ("CHR", "Adult Christening"),
   ("DEAT", "Death"), ("BURI", "Burial"), ("CREM", "Cremation"),
   ("ADOP", "Adoption"), ("NATU", "Naturalization"), ("EMIG", "Emigration"),
   ("IMMI", "Immigration"), ("BAPM", "Baptism"), ("BARM", "Bar Mitzvah"),
   ("BASM", "Bas Mitzvah"), ("BLES", "Bles"), ("CHRA", "Christening"),
   ("CONF", "Confirmation"), ("FCOM", "First Communion"), ("ORDN", "Ord"),
   ("CENS", "Census"), ("PROB", "Probate"), ("WILL", "Will"),
   ("GRAD", "Graduation"), ("RETI", "Retirement")]

/-! ## utils.py -/

/-- utils.is_valid_level: all digits and the integer is between 0 and 99. -/
def is_valid_level (token : String) : Bool :=
  pyIsDigit token && decide (0 ≤ pyInt token) && decide (pyInt token ≤ 99)

/-- utils.is_cross_ref_id: length > 2, starts and ends with `@`. -/
def is_cross_ref_id (token : String) : Bool :=
  decide (token.toList.length > 2) &&
    (match token.toList.head? with | some c => c == '@' | none => false) &&
    (match token.toList.getLast? with | some c => c == '@' | none => false)

/-- utils.is_valid_cross_ref_id: length > 2 and interior characters
alphanumeric and not `@`. -/
def is_valid_cross_ref_id (token : String) : Bool :=
  decide (token.toList.length > 2) &&
    ((token.toList.drop 1).dropLast.all (fun c => pyIsAlnumChar c && c != '@'))

/-- utils.is_obsolete_tag. -/
def is_obsolete_tag (token : String) : Bool := obsoleteTagValues.contains token

/-- utils.is_valid_tag. -/
def is_valid_tag (token : String) : Bool := tagValues.contains token

/-- Python `str.lstrip('_')`. -/
def pyLstripUnderscore (s : String) : String :=
  String.mk (s.toList.dropWhile (· == '_'))

/-- utils.is_user_defined_tag: one leading underscore, no further
underscores, optionally rejecting redefinitions of standard tags. -/
def is_user_defined_tag (token : String) (allowRedefined : Bool) : Bool :=
  match token.toList with
  | [] => false
  | c :: rest =>
    if c != '_' then false
    else if decide (rest.count '_' > 0) then false
    else if !allowRedefined && tagValues.contains (pyLstripUnderscore token) then false
    else true

/-- utils.is_valid_line_value_token: accepts everything. -/
def is_valid_line_value_token (_token : String) : Bool := true

/-- utils.is_surname: starts and ends with `/`, longer than one character.
(Dead code in the engine: no caller exists in parse_engine.py.) -/
def is_surname (token : String) : Bool :=
  decide (token.toList.length > 1) &&
    (match token.toList.head? with | some c => c == '/' | none => false) &&
    (match token.toList.getLast? with | some c => c == '/' | none => false)

/-! ## entity.Record (flat line data; child_records live in `Record` below) -/

/-- The flat fields of entity.Record that parse_raw_line populates.
`child_records` is the tree layer (`Record`), appended later by the
hierarchy builder, and `individual` is the back-reference modelled by
`Engine.indiBuilt`. -/
structure Rec where
  level : Nat
  tag : String := ""
  lineValue : String := ""
  crossRefId : String := ""
  crossRefPtr : String := ""
  ignorable : Bool := false
deriving Repr, DecidableEq

/-- entity.Record.__str__. -/
def recStr (r : Rec) : String :=
  let s := toString r.level ++ " "
  let s := if r.crossRefId ≠ "" then s ++ r.crossRefId ++ " " else s
  let s := if r.tag ≠ "" then s ++ r.tag ++ " " else s
  if r.lineValue ≠ "" then s ++ r.lineValue
  else if r.crossRefPtr ≠ "" then s ++ r.crossRefPtr
  else s

/-- A record together with its child_records (the forest node). -/
inductive Record : Type where
  | node (data : Rec) (children : List Record) : Record
deriving Repr

/-- The flat data of a forest node. -/
def Record.data : Record → Rec
  | .node d _ => d

/-- The child_records of a forest node. -/
def Record.children : Record → List Record
  | .node _ cs => cs

/-! ## entity.py: the entities the structure parsers populate.
Fields that no parser in parse_engine.py ever writes or reads are constants
of the construction; they are kept only where some parser touches them. -/

/-- entity.NamePiece (field `prefixPiece` is the Python key `prefix`,
`surnamePrefixPiece` is `surnamePrefix`; renamed only because of Lean
keyword clashes). -/
structure NamePiece where
  surname : String := ""
  prefixPiece : String := ""
  given : String := ""
  nickname : String := ""
  surnamePrefixPiece : String := ""
  suffix : String := ""
deriving Repr, DecidableEq

/-- entity.Name: the `name`, `phoneticVariation` and `romanizedVariation`
sub-dictionaries, flattened. -/
structure Name where
  nameType : String := "main"
  value : String := ""
  namePieces : NamePiece := {}
  nameNote : String := ""
  nameSourceCitation : String := ""
  phoneticType : String := ""
  phoneticValue : String := ""
  phoneticNamePieces : NamePiece := {}
  phoneticNote : String := ""
  phoneticSourceCitation : String := ""
  romanizedType : String := ""
  romanizedValue : String := ""
  romanizedNamePieces : NamePiece := {}
  romanizedNote : String := ""
  romanizedSourceCitation : String := ""
deriving Repr, DecidableEq

/-- entity.Date: `day`/`month`/`year`/`julianAlternativeYear` start as the
empty string in Python and are overwritten with values by the setters;
modelled as `Option`.  `isBC` is the literal `'N'`/`'Y'` string.  The
period/range sub-dictionaries are never written by parse_date (that part of
the grammar is unimplemented) and are omitted as constants. -/
structure DateE where
  calendar : String := "@#DGREGORIAN@"
  dateType : String := "regular"
  phrase : String := ""
  approximationType : String := ""
  day : Option Nat := none
  month : Option String := none
  year : Option Nat := none
  julianAlternativeYear : Option Nat := none
  isBC : String := "N"
deriving Repr, DecidableEq

/-- entity.Address. -/
structure Address where
  addressLines : List String := []
  cityAddress : String := ""
  stateAddress : String := ""
  zipCode : String := ""
  countryAddress : String := ""
  phoneNumber : String := ""
  emailAddress : String := ""
  faxAddress : String := ""
  webAddress : String := ""
deriving Repr, DecidableEq

/-- entity.Header (written fields only; transmissionDate and
source.sourceData.publicationDate are unreachable in parse_header because
`entity.Date(value)` raises TypeError, see below). -/
structure Header where
  sourceVersion : String := ""
  sourceSystemId : String := ""
  sourceProductName : String := ""
  corpBusinessName : String := ""
  corpBusinessAddress : Option Address := none
  sourceDataName : String := ""
  sourceDataCopyright : String := ""
  receivingSystem : String := ""
  submittingTo : String := ""
  submittedBy : String := ""
  fileName : String := ""
  gedcomFileCopyright : String := ""
  gedcomMetaVersion : String := ""
  gedcomMetaForm : String := ""
  charSetVersion : String := ""
  charSetType : String := ""
  language : String := ""
  placeHierarchy : List String := []
  note : String := ""
deriving Repr, DecidableEq

/-- entity.IndividualEvent (fields written by parse_indi_records). -/
structure IndividualEvent where
  explicitEventType : String := ""
  genericEventType : String := ""
  lineValue : String := ""
  eventDate : Option DateE := none
  eventAddress : Option Address := none
deriving Repr, DecidableEq

/-- entity.Individual (fields written by parse_indi_records; the rest of
the Python dictionary is constant). -/
structure Individual where
  crossReferenceId : String
  sex : String := "U"
  names : List Name := []
  individualEvents : List IndividualEvent := []
deriving Repr, DecidableEq

/-- entity.Family (fields written by parse_fam_records). -/
structure Family where
  crossReferenceId : String
  restrictionNotice : String := ""
  parentOne : Option Individual := none
  parentTwo : Option Individual := none
  children : List Individual := []
deriving Repr, DecidableEq

/-! ## The ParseEngine state and the result of a Python call -/

/-- The mutable ParseEngine instance.  `refs`, the header slot and the
INDI/FAM buckets key Record objects by their 1-based line number (object
identity), resolved against the built forest with `nodeAt`.  `indiBuilt`
models the `record.individual` back-pointers set by parse_indi_records.
`errorWrites` counts assignments to the `_error` slot (the slot itself keeps
Python's overwrite semantics). -/
structure Engine where
  error : Option String := none
  errorWrites : Nat := 0
  warnings : List String := []
  refs : List (String × Nat) := []
  headerIdx : Option Nat := none
  indiRecords : List Nat := []
  famRecords : List Nat := []
  indiBuilt : List (Nat × Individual) := []
deriving Repr, DecidableEq

/-- `self._error = msg` (one more write to the slot). -/
def setError (msg : String) (e : Engine) : Engine :=
  { e with error := some msg, errorWrites := e.errorWrites + 1 }

/-- `self._warnings.append(msg)`. -/
def addWarning (msg : String) (e : Engine) : Engine :=
  { e with warnings := e.warnings ++ [msg] }

/-- `key in self._top_level_references` / dictionary lookup. -/
def lookupRef (e : Engine) (key : String) : Option Nat :=
  (e.refs.find? (fun p => p.1 == key)).map (·.2)

/-- `record.individual` for the record registered at line `i`. -/
def lookupIndi (e : Engine) (i : Nat) : Option Individual :=
  (e.indiBuilt.find? (fun p => p.1 == i)).map (·.2)

/-- The result of a Python call that returns `X | None` and may raise:
`.ok` is a value, `.none` is `return None`, `.crash` is an uncaught
exception (IndexError, TypeError, AttributeError). -/
inductive PyResult (α : Type) : Type where
  | ok (a : α) : PyResult α
  | none : PyResult α
  | crash : PyResult α
deriving Repr, DecidableEq

/-! ## parse_raw_line (parse_engine.py lines 109-195) -/

/-- The loop over the tokens after the tag (parse_engine.py lines 176-193).
Python appends a separating space after an appended token unless that token
is the last token of the whole line (`i != len(tokens) - 1`), i.e. unless
`rest` is empty after it. -/
def line_value_loop (e : Engine) (lineNum : Nat) (r : Rec) :
    List String → Engine × PyResult Rec
  | [] => (e, .ok r)
  | t :: rest =>
    if is_cross_ref_id t && is_valid_cross_ref_id t then
      if r.crossRefId ≠ "" then
        (setError ("Duplicate cross reference and pointer in line " ++ toString lineNum) e,
         .none)
      else line_value_loop e lineNum { r with crossRefPtr := t } rest
    else if is_valid_line_value_token t then
      line_value_loop e lineNum
        { r with lineValue :=
            r.lineValue ++ t ++ (if rest.isEmpty then "" else " ") } rest
    else
      (setError ("Invalid text " ++ t ++ " in line " ++ toString lineNum) e, .none)

/-- The tag step and the line-value loop (parse_engine.py lines 151-195),
starting from the record produced by the level/cross-reference steps.
`restTokens` are the tokens after the tag token. -/
def parse_raw_line_tag (e : Engine) (lineNum : Nat) (r : Rec) (tagTok : String)
    (restTokens : List String) : Engine × PyResult Rec :=
  if is_valid_tag tagTok || is_user_defined_tag tagTok true then
    let r := { r with tag := tagTok }
    let e :=
      if tagTok = "INDI" then { e with indiRecords := e.indiRecords ++ [lineNum] }
      else if tagTok = "FAM" then { e with famRecords := e.famRecords ++ [lineNum] }
      else if tagTok = "HEAD" then { e with headerIdx := some lineNum }
      else e
    line_value_loop e lineNum r restTokens
  else if is_obsolete_tag tagTok then
    let r := { r with tag := tagTok, ignorable := true }
    let e := addWarning
      ("Record ignored with the obsolete tag " ++ tagTok ++ " in line " ++
        toString lineNum) e
    line_value_loop e lineNum r restTokens
  else
    (setError ("Invalid tag " ++ tagTok ++ " in line " ++ toString lineNum) e, .none)

/-- parse_engine.ParseEngine.parse_raw_line.  Out-of-range accesses
`tokens[0]` (empty line), `tokens[1]` (level only) and `tokens[i]` at the
tag step (level and id but no tag) raise IndexError in Python and are
modelled as `.crash`. -/
def parse_raw_line (e : Engine) (rawLine : String) (lineNum : Nat) :
    Engine × PyResult Rec :=
  let tokens := pySplit rawLine
  match tokens.get? 0 with
  | Option.none => (e, .crash)
  | some t0 =>
    if is_valid_level t0 then
      let r : Rec := { level := pyInt t0 }
      match tokens.get? 1 with
      | Option.none => (e, .crash)
      | some t1 =>
        if is_cross_ref_id t1 then
          if is_valid_cross_ref_id t1 then
            if (lookupRef e t1).isSome then
              (setError ("Duplicate cross reference id " ++ t1 ++ " in line " ++
                toString lineNum) e, .none)
            else
              let r := { r with crossRefId := t1 }
              let e := { e with refs := e.refs ++ [(t1, lineNum)] }
              match tokens.get? 2 with
              | Option.none => (e, .crash)
              | some t2 => parse_raw_line_tag e lineNum r t2 (tokens.drop 3)
          else
            (setError ("Invalid cross reference id " ++ t1 ++ " in line " ++
              toString lineNum) e, .none)
        else
          parse_raw_line_tag e lineNum r t1 (tokens.drop 2)
    else
      (setError ("Invalid level " ++ t0 ++ " in line " ++ toString lineNum) e, .none)

/-! ## parse_raw_lines (parse_engine.py lines 80-107): the hierarchy builder.

Python builds the forest by mutation: each new record is appended to the
child list of the record below it on the stack.  The functional counterpart
is a zipper: the stack holds frames `(record, children so far)`; popping a
frame closes it into a `Record.node` and attaches it to the frame below (or
to the top-level output when the stack empties).  After the loop, the
records still on the stack are closed by `popTo 0` — in Python this needs no
code because the top-level objects were already aliased into
`parsed_records`. -/

/-- One frame of the hierarchy builder's stack. -/
abbrev Frame := Rec × List Record

/-- Closes the finished tree `t` into the stack: `t` is appended to the
children of the top frame; frames whose level is still `≥ lvl` keep being
popped (source: `while len(stack) > 0 and stack[-1].level >= record.level`).
The stack list is top-first. -/
def popToAttach (lvl : Nat) (t : Record) :
    List Frame → List Record → List Frame × List Record
  | [], out => ([], out ++ [t])
  | (r, cs) :: rest, out =>
    if lvl ≤ r.level then popToAttach lvl (Record.node r (cs ++ [t])) rest out
    else ((r, cs ++ [t]) :: rest, out)

/-- The pop loop of parse_raw_lines for a new record of level `lvl`. -/
def popTo (lvl : Nat) : List Frame → List Record → List Frame × List Record
  | [], out => ([], out)
  | (r, cs) :: rest, out =>
    if lvl ≤ r.level then popToAttach lvl (Record.node r cs) rest out
    else ((r, cs) :: rest, out)

/-- One iteration of the parse_raw_lines loop on an already tokenized
record: pop, attach, push. -/
def stepRec (st : List Frame × List Record) (r : Rec) : List Frame × List Record :=
  let so := popTo r.level st.1 st.2
  ((r, []) :: so.1, so.2)

/-- Closing the final builder state into the forest. -/
def finishForest (st : List Frame × List Record) : List Record :=
  (popTo 0 st.1 st.2).2

/-- The pure hierarchy construction on a list of tokenized records. -/
def buildForest (rs : List Rec) : List Record :=
  finishForest (rs.foldl stepRec ([], []))

/-- parse_engine.ParseEngine.parse_raw_lines, one line at a time
(`i + 1` is the 1-based line number passed to parse_raw_line). -/
def parse_raw_lines_go (e : Engine) (i : Nat) (stack : List Frame)
    (out : List Record) : List String → Engine × PyResult (List Record)
  | [] => (e, .ok (finishForest (stack, out)))
  | l :: ls =>
    match parse_raw_line e l (i + 1) with
    | (e1, .ok r) =>
      let so := popTo r.level stack out
      parse_raw_lines_go e1 (i + 1) ((r, []) :: so.1) so.2 ls
    | (e1, .none) => (e1, .none)
    | (e1, .crash) => (e1, .crash)

/-- parse_engine.ParseEngine.parse_raw_lines. -/
def parse_raw_lines (e : Engine) (lines : List String) :
    Engine × PyResult (List Record) :=
  parse_raw_lines_go e 0 [] [] lines

/-- The tokenization part of parse_raw_lines on its own: the same
parse_raw_line calls in the same order, collecting the flat records. -/
def tokenize_lines_go (e : Engine) (i : Nat) :
    List String → Engine × PyResult (List Rec)
  | [] => (e, .ok [])
  | l :: ls =>
    match parse_raw_line e l (i + 1) with
    | (e1, .ok r) =>
      match tokenize_lines_go e1 (i + 1) ls with
      | (e2, .ok rs) => (e2, .ok (r :: rs))
      | (e2, .none) => (e2, .none)
      | (e2, .crash) => (e2, .crash)
    | (e1, .none) => (e1, .none)
    | (e1, .crash) => (e1, .crash)

/-- Tokenizing a line sequence from the initial position. -/
def tokenize_lines (e : Engine) (lines : List String) :
    Engine × PyResult (List Rec) :=
  tokenize_lines_go e 0 lines

/-! ## Pre-order traversal with depths, and node resolution -/

mutual
/-- Pre-order traversal of a tree, pairing every record with its depth
(= number of ancestors). -/
def flattenD (d : Nat) : Record → List (Nat × Rec)
  | .node r cs => (d, r) :: flattenDF (d + 1) cs

/-- Pre-order traversal of a forest with depths. -/
def flattenDF (d : Nat) : List Record → List (Nat × Rec)
  | [] => []
  | t :: ts => flattenD d t ++ flattenDF d ts
end

mutual
/-- All nodes of a tree in pre-order (each with its subtree). -/
def nodeList : Record → List Record
  | .node r cs => .node r cs :: nodeListF cs

/-- All nodes of a forest in pre-order. -/
def nodeListF : List Record → List Record
  | [] => []
  | t :: ts => nodeList t ++ nodeListF ts
end

/-- The record object registered under 1-based line number `i`, resolved
against the built forest (pre-order position `i - 1`; faithful by
`preorder_data_eq` below since registration order is line order). -/
def nodeAt (forest : List Record) (i : Nat) : Option Record :=
  (nodeListF forest).get? (i - 1)

/-- The well-formed-levels hypothesis of the hierarchy-builder claim,
threaded through the scan: the next record's level is at most `k`, where
`k` is 0 at the start and `previous level + 1` afterwards. -/
def wfFrom (k : Nat) : List Rec → Prop
  | [] => True
  | r :: rs => r.level ≤ k ∧ wfFrom (r.level + 1) rs

instance : ∀ k rs, Decidable (wfFrom k rs) := by
  intro k rs
  induction rs generalizing k with
  | nil => exact isTrue trivial
  | cons r rs ih => exact (by
      have := ih (r.level + 1)
      unfold wfFrom
      infer_instance)

/-! ## parse_date (parse_engine.py lines 547-751) -/

/-- Python `s.endswith(t)`. -/
def pyEndsWith (s t : String) : Bool :=
  t.toList.reverse.isPrefixOf s.toList.reverse

/-- `str.index('@')` with the (unreachable here) absent case defaulted. -/
def pyIndexCharD (c : Char) (s : String) : Nat :=
  (s.toList.findIdx? (· == c)).getD 0

/-- `str.rindex('@')` with the (unreachable here) absent case defaulted. -/
def pyRindexCharD (c : Char) (s : String) : Nat :=
  match s.toList.reverse.findIdx? (· == c) with
  | some i => s.toList.length - 1 - i
  | Option.none => 0

/-- Modelled from the spec: `utils.strip_BC` is called by parse_date
(parse_engine.py line 650) but is missing — no definition exists anywhere
under src/ (utils.py ends at is_surname).  Spec section 4.5 describes the
one-token Gregorian REGULAR case as "a bare year, optionally suffixed
`B.C.`/`BC` (sets BC flag)", so the missing helper is modelled as removing
that suffix from the year token. -/
def strip_BC (year : String) : String :=
  if pyEndsWith year "B.C." then String.mk (year.toList.dropLast.dropLast.dropLast.dropLast)
  else if pyEndsWith year "BC" then String.mk (year.toList.dropLast.dropLast)
  else year

/-- parse_date's inner strip_and_set_calendar_type (lines 554-580).  The
closure mutates `date` (set_calendar), so the date travels in and out. -/
def strip_and_set_calendar_type (e : Engine) (record : Rec) (date : DateE) :
    Engine × Option (String × DateE) :=
  let atCount := pyCountChar '@' record.lineValue
  if atCount = 1 then
    (setError ("Invalid date record " ++ recStr record ++
      ", expected two @ symbols for calendar type") e, Option.none)
  else if atCount = 2 then
    let l := pyIndexCharD '@' record.lineValue
    if l ≠ 0 then
      (setError ("Invalid date record " ++ recStr record ++
        ", expected @<CALENDAR>@ <date>") e, Option.none)
    else
      let r := pyRindexCharD '@' record.lineValue
      let calendar := pySlice record.lineValue (r + 1)
      if !(calendarTypeValues.contains calendar) then
        (setError ("Unknown calendar type " ++ calendar ++ " for date record " ++
          recStr record) e, Option.none)
      else
        (e, some (pyLstrip (pyReplace record.lineValue calendar ""),
          { date with calendar := calendar }))
  else
    (e, some (record.lineValue, date))

/-- parse_date's inner determine_date_type (lines 582-618).  Note that the
DateRange and DateApproximated StrEnums both contain the empty string as the
NONE member, so a first token that normalizes to "" classifies as RANGE. -/
def determine_date_type (e : Engine) (record : Rec) (tokens : List String) :
    Engine × Option String :=
  match tokens with
  | [] => (e, Option.none)
  | t0 :: rest =>
    let tokenOne := pyRstripDot (pyUpper t0)
    let tokenTwo := match rest with
      | t1 :: _ => pyRstripDot (pyUpper t1)
      | [] => ""
    if datePeriodValues.contains tokenOne then (e, some "period")
    else if dateRangeValues.contains tokenOne then
      if tokenOne == "BET" && !(tokens.contains "AND") then
        (setError ("Invalid date record " ++ recStr record ++
          ", \"BET\" requires \"AND\" to separate two dates") e, Option.none)
      else if tokenTwo == "AND" then
        (setError ("Invalid date record " ++ recStr record ++
          ", \"AND\" must separate two dates") e, Option.none)
      else (e, some "range")
    else if dateApproximatedValues.contains tokenOne then (e, some "approximated")
    else if tokenOne == "INT" then (e, some "regular")
    else if tokenOne == "(" then
      if tokens.getLast? ≠ some ")" then
        (setError ("Invalid date record " ++ recStr record ++
          ", expected closing parenthesis for date phrase") e, Option.none)
      else (e, some "phrase")
    else (e, some "regular")

/-- The one-token Gregorian REGULAR branch of parse_date (lines 647-679).
`wd` is the warning_date, `dlv` the calendar-stripped line value. -/
def parse_date_one_token (e : Engine) (record : Rec) (wd : DateE) (dlv : String)
    (t0 : String) (d : DateE) : Engine × PyResult DateE :=
  let bc := pyContains t0 "B.C." || pyContains t0 "BC"
  let year := if bc then strip_BC t0 else t0
  let d := { d with isBC := if bc then "Y" else "N" }
  let slashCount := pyCountChar '/' year
  if slashCount = 0 then
    if !pyIsDigit year then
      (addWarning ("Invalid year " ++ year ++ " for date record " ++ recStr record) e,
       .ok { wd with phrase := dlv })
    else (e, .ok { d with year := some (pyInt year) })
  else if slashCount = 1 then
    let parts := pySplitSlash year
    let p0 := parts.headD ""
    let p1 := (parts.drop 1).headD ""
    if !pyIsDigit p0 then
      (addWarning ("Invalid year " ++ p0 ++ " for date record " ++ recStr record) e,
       .ok { wd with phrase := dlv })
    else
      let d := { d with year := some (pyInt p0) }
      if !pyIsDigit p1 then
        (addWarning ("Invalid julian alternative " ++ p1 ++ " for date record " ++
          recStr record) e, .ok { wd with phrase := dlv })
      else (e, .ok { d with julianAlternativeYear := some (pyInt p1) })
  else
    (setError ("Invalid year " ++ year ++ " for date record " ++ recStr record ++
      ", expected at most one slash") e, .none)

/-- The two-token Gregorian REGULAR branch of parse_date (lines 680-698). -/
def parse_date_two_tokens (e : Engine) (record : Rec) (wd : DateE) (dlv : String)
    (t0 t1 : String) (d : DateE) : Engine × PyResult DateE :=
  if t1 == "B.C." || t1 == "BC" then
    let d := { d with isBC := "Y" }
    if !pyIsDigit t0 then
      (addWarning ("Invalid year " ++ t0 ++ " for date record " ++ recStr record) e,
       .ok { wd with phrase := dlv })
    else (e, .ok { d with year := some (pyInt t0) })
  else
    let month := pyStripDot (pyUpper t0)
    if !(monthValues.contains month) then
      (addWarning ("Invalid month " ++ month ++ " for date record " ++ recStr record) e,
       .ok { wd with phrase := dlv })
    else
      let d := { d with month := some month, isBC := "N" }
      if !pyIsDigit t1 then
        (addWarning ("Invalid year " ++ t1 ++ " for date record " ++ recStr record) e,
         .ok { wd with phrase := dlv })
      else (e, .ok { d with year := some (pyInt t1) })

/-- The three-token Gregorian REGULAR branch of parse_date (lines 699-720). -/
def parse_date_three_tokens (e : Engine) (record : Rec) (wd : DateE) (dlv : String)
    (t0 t1 t2 : String) (d : DateE) : Engine × PyResult DateE :=
  let month := pyStripDot (pyUpper t1)
  if !pyIsDigit t0 then
    (addWarning ("Invalid day " ++ t0 ++ " for date record " ++ recStr record) e,
     .ok { wd with phrase := dlv })
  else
    let d := { d with day := some (pyInt t0) }
    if !pyIsDigit t2 then
      (addWarning ("Invalid year " ++ t2 ++ " for date record " ++ recStr record) e,
       .ok { wd with phrase := dlv })
    else
      let d := { d with year := some (pyInt t2) }
      if !(monthValues.contains month) then
        (addWarning ("Invalid month " ++ month ++ " for date record " ++ recStr record) e,
         .ok { wd with phrase := dlv })
      else (e, .ok { d with month := some month })

/-- parse_engine.ParseEngine.parse_date.  Beware: an empty (or
whitespace-only after calendar stripping) line value trips the Python
falsiness check `if not date_line_value: return None` before the
"no date value provided" error could be recorded.  `date.get_calendar()`
re-constructs the CalendarType enum from the stored value and would raise
ValueError on anything else, so the final `case _` of the calendar match is
unreachable (modelled by `.crash` for an out-of-enum calendar string). -/
def parse_date (e : Engine) (record : Rec) : Engine × PyResult DateE :=
  let d : DateE := {}
  let wd : DateE := { dateType := "phrase" }
  match strip_and_set_calendar_type e record d with
  | (e1, Option.none) => (e1, .none)
  | (e1, some (dlv, d)) =>
    if dlv = "" then (e1, .none)
    else
      let tokens := pySplit dlv
      if tokens.length = 0 then
        (setError ("Invalid date record " ++ recStr record ++
          ", no date value provided") e1, .none)
      else
        match determine_date_type e1 record tokens with
        | (e2, Option.none) =>
          ((if e2.error.isSome then e2
            else setError ("Unable to determine the type of date for the record " ++
              recStr record) e2), .none)
        | (e2, some dtype) =>
          let d := { d with dateType := dtype }
          if !(calendarTypeValues.contains d.calendar) then (e2, .crash)
          else if d.calendar = "@#DGREGORIAN@" then
            if d.dateType = "regular" then
              match tokens with
              | [t0] => parse_date_one_token e2 record wd dlv t0 d
              | [t0, t1] => parse_date_two_tokens e2 record wd dlv t0 t1 d
              | [t0, t1, t2] => parse_date_three_tokens e2 record wd dlv t0 t1 t2 d
              | _ => (e2, .ok d)
            else (e2, .ok d)
          else (e2, .ok d)

/-! ## parse_address (parse_engine.py lines 753-807) -/

/-- The loop over an ADDR record's children (lines 773-794).  The Bool is
`appending_addr_cont`. -/
def parse_addr_child_loop (e : Engine) (addr : Address) (flag : Bool) :
    List Record → Engine × PyResult Address
  | [] => (e, .ok addr)
  | c :: rest =>
    let t := c.data.tag
    if t = "CONT" then
      if !flag then (setError "Out of order CONT tags within address" e, .none)
      else parse_addr_child_loop e
        { addr with addressLines := addr.addressLines ++ [c.data.lineValue] } flag rest
    else if t = "CITY" then
      parse_addr_child_loop e { addr with cityAddress := c.data.lineValue } false rest
    else if t = "STAE" then
      parse_addr_child_loop e { addr with stateAddress := c.data.lineValue } false rest
    else if t = "POST" then
      parse_addr_child_loop e { addr with zipCode := c.data.lineValue } false rest
    else if t = "CTRY" then
      parse_addr_child_loop e { addr with countryAddress := c.data.lineValue } false rest
    else
      (setError ("Unrecognized address tag \x27" ++ t ++ "\x27") e, .none)

/-- The loop over the record's children in parse_address (lines 765-805). -/
def parse_address_loop (e : Engine) (addr : Address) :
    List Record → Engine × PyResult Address
  | [] => (e, .ok addr)
  | c :: rest =>
    let t := c.data.tag
    if t = "ADDR" then
      let addr := { addr with addressLines := addr.addressLines ++ [c.data.lineValue] }
      match parse_addr_child_loop e addr true c.children with
      | (e1, .ok addr1) => parse_address_loop e1 addr1 rest
      | (e1, .none) => (e1, .none)
      | (e1, .crash) => (e1, .crash)
    else if t = "PHON" then
      parse_address_loop e { addr with phoneNumber := c.data.lineValue } rest
    else if t = "EMAIL" then
      parse_address_loop e { addr with emailAddress := c.data.lineValue } rest
    else if t = "FAX" then
      parse_address_loop e { addr with faxAddress := c.data.lineValue } rest
    else if t = "WWW" then
      parse_address_loop e { addr with webAddress := c.data.lineValue } rest
    else
      (setError ("Unrecognized address tag \x27" ++ t ++ "\x27") e, .none)

/-- parse_engine.ParseEngine.parse_address. -/
def parse_address (e : Engine) (record : Record) : Engine × PyResult Address :=
  parse_address_loop e {} record.children

/-! ## parse_header (parse_engine.py lines 197-303).

Both DATE branches construct `entity.Date(line_value)`, but Date.__init__
takes no value argument, so the call raises TypeError — which the
`except ValueError` does not catch.  Those branches are modelled as
`.crash`; in particular the error-then-continue write in the header DATE
handler (lines 248-253) is unreachable. -/

/-- The SOUR > DATA loop (lines 230-243). -/
def parse_header_data_loop (e : Engine) (h : Header) :
    List Record → Engine × PyResult Header
  | [] => (e, .ok h)
  | c :: rest =>
    let t := c.data.tag
    if t = "DATE" then (e, .crash)
    else if t = "COPR" then
      parse_header_data_loop e { h with sourceDataCopyright := c.data.lineValue } rest
    else (setError ("Unrecognized header tag " ++ t) e, .none)

/-- The SOUR loop (lines 215-247). -/
def parse_header_sour_loop (e : Engine) (h : Header) :
    List Record → Engine × PyResult Header
  | [] => (e, .ok h)
  | c :: rest =>
    let t := c.data.tag
    if t = "VERS" then
      parse_header_sour_loop e { h with sourceVersion := c.data.lineValue } rest
    else if t = "NAME" then
      parse_header_sour_loop e { h with sourceProductName := c.data.lineValue } rest
    else if t = "CORP" then
      let h := { h with corpBusinessName := c.data.lineValue }
      match parse_address e c with
      | (e1, .ok a) =>
        parse_header_sour_loop e1 { h with corpBusinessAddress := some a } rest
      | (e1, .none) => (e1, .none)
      | (e1, .crash) => (e1, .crash)
    else if t = "DATA" then
      let h := { h with sourceDataName := c.data.lineValue }
      match parse_header_data_loop e h c.children with
      | (e1, .ok h1) => parse_header_sour_loop e1 h1 rest
      | (e1, .none) => (e1, .none)
      | (e1, .crash) => (e1, .crash)
    else if !(is_user_defined_tag t true) then
      (setError ("Unrecognized header tag " ++ t) e, .none)
    else parse_header_sour_loop e h rest

/-- The GEDC loop (lines 263-272). -/
def parse_header_gedc_loop (e : Engine) (h : Header) :
    List Record → Engine × PyResult Header
  | [] => (e, .ok h)
  | c :: rest =>
    let t := c.data.tag
    if t = "VERS" then
      parse_header_gedc_loop e { h with gedcomMetaVersion := c.data.lineValue } rest
    else if t = "FORM" then
      if formValues.contains c.data.lineValue then
        parse_header_gedc_loop e { h with gedcomMetaForm := c.data.lineValue } rest
      else parse_header_gedc_loop e h rest
    else (setError ("Unrecognized header tag " ++ t) e, .none)

/-- The CHAR loop (lines 275-281). -/
def parse_header_char_loop (e : Engine) (h : Header) :
    List Record → Engine × PyResult Header
  | [] => (e, .ok h)
  | c :: rest =>
    let t := c.data.tag
    if t = "VERS" then
      parse_header_char_loop e { h with charSetVersion := c.data.lineValue } rest
    else (setError ("Unrecognized header tag " ++ t) e, .none)

/-- The main loop of parse_header over the header's children. -/
def parse_header_loop (e : Engine) (h : Header) :
    List Record → Engine × PyResult Header
  | [] => (e, .ok h)
  | c :: rest =>
    let t := c.data.tag
    if t = "SOUR" then
      let h := { h with sourceSystemId := c.data.lineValue }
      match parse_header_sour_loop e h c.children with
      | (e1, .ok h1) => parse_header_loop e1 h1 rest
      | (e1, .none) => (e1, .none)
      | (e1, .crash) => (e1, .crash)
    else if t = "DATE" then (e, .crash)
    else if t = "SUBM" || t = "SUBN" then
      if is_cross_ref_id c.data.crossRefPtr && is_valid_cross_ref_id c.data.crossRefPtr then
        if t = "SUBM" then
          parse_header_loop e { h with submittingTo := c.data.crossRefPtr } rest
        else
          parse_header_loop e { h with submittedBy := c.data.crossRefPtr } rest
      else parse_header_loop e h rest
    else if t = "GEDC" then
      match parse_header_gedc_loop e h c.children with
      | (e1, .ok h1) => parse_header_loop e1 h1 rest
      | (e1, .none) => (e1, .none)
      | (e1, .crash) => (e1, .crash)
    else if t = "CHAR" then
      let h := { h with charSetType := c.data.lineValue }
      match parse_header_char_loop e h c.children with
      | (e1, .ok h1) => parse_header_loop e1 h1 rest
      | (e1, .none) => (e1, .none)
      | (e1, .crash) => (e1, .crash)
    else if t = "PLAC" then
      match c.children with
      | [f] =>
        if f.data.tag = "FORM" then
          parse_header_loop e
            { h with placeHierarchy := pySplitComma f.data.lineValue } rest
        else (setError "Invalid header PLAC.FORM record" e, .none)
      | _ => (setError "Invalid header PLAC.FORM record" e, .none)
    else if t = "DEST" then
      parse_header_loop e { h with receivingSystem := c.data.lineValue } rest
    else if t = "FILE" then
      parse_header_loop e { h with fileName := c.data.lineValue } rest
    else if t = "COPR" then
      parse_header_loop e { h with gedcomFileCopyright := c.data.lineValue } rest
    else if t = "LANG" then
      parse_header_loop e { h with language := c.data.lineValue } rest
    else if t = "NOTE" then
      parse_header_loop e { h with note := c.data.lineValue } rest
    else (setError ("Unrecognized header tag " ++ t) e, .none)

/-- parse_engine.ParseEngine.parse_header. -/
def parse_header (e : Engine) (forest : List Record) : Engine × PyResult Header :=
  match e.headerIdx with
  | Option.none =>
    (setError "No header record found at the beginning of the GEDCOM file" e, .none)
  | some i =>
    match nodeAt forest i with
    | Option.none => (e, .crash)
    | some hd => parse_header_loop e {} hd.children

/-! ## parse_indi_records (parse_engine.py lines 381-545) -/

/-- parse_indi_records' inner parse_name_pieces (lines 392-413): unknown
tags are silently skipped. -/
def parse_name_pieces_loop (np : NamePiece) : List Record → NamePiece
  | [] => np
  | c :: rest =>
    let t := c.data.tag
    let np :=
      if t = "NPFX" then { np with prefixPiece := c.data.lineValue }
      else if t = "GIVN" then { np with given := c.data.lineValue }
      else if t = "NICK" then { np with nickname := c.data.lineValue }
      else if t = "SPFX" then { np with surnamePrefixPiece := c.data.lineValue }
      else if t = "SURN" then { np with surname := c.data.lineValue }
      else if t = "NSFX" then { np with suffix := c.data.lineValue }
      else np
    parse_name_pieces_loop np rest

/-- parse_name_pieces on a record. -/
def parse_name_pieces (record : Record) : NamePiece :=
  parse_name_pieces_loop {} record.children

/-- The FONE sub-loop (lines 441-455). -/
def parse_phonetic_loop (e : Engine) (indiId : String) (nm : Name) :
    List Record → Engine × PyResult Name
  | [] => (e, .ok nm)
  | c :: rest =>
    let t := c.data.tag
    if t = "TYPE" then
      if !(phoneticTypeValues.contains c.data.lineValue) then
        (setError ("Invalid phonetic type " ++ c.data.lineValue ++
          " for individual " ++ indiId) e, .none)
      else parse_phonetic_loop e indiId { nm with phoneticType := c.data.lineValue } rest
    else if t = "NOTE" then
      parse_phonetic_loop e indiId { nm with phoneticNote := c.data.lineValue } rest
    else if t = "SOUR" then
      parse_phonetic_loop e indiId
        { nm with phoneticSourceCitation := c.data.crossRefPtr } rest
    else if !(is_user_defined_tag t true) then
      (setError ("Unrecognized individual tag " ++ t) e, .none)
    else parse_phonetic_loop e indiId nm rest

/-- The ROMN sub-loop (lines 460-474). -/
def parse_romanized_loop (e : Engine) (indiId : String) (nm : Name) :
    List Record → Engine × PyResult Name
  | [] => (e, .ok nm)
  | c :: rest =>
    let t := c.data.tag
    if t = "TYPE" then
      if !(romanizedTypeValues.contains c.data.lineValue) then
        (setError ("Invalid romanized type " ++ c.data.lineValue ++
          " for individual " ++ indiId) e, .none)
      else parse_romanized_loop e indiId { nm with romanizedType := c.data.lineValue } rest
    else if t = "NOTE" then
      parse_romanized_loop e indiId { nm with romanizedNote := c.data.lineValue } rest
    else if t = "SOUR" then
      parse_romanized_loop e indiId
        { nm with romanizedSourceCitation := c.data.crossRefPtr } rest
    else if !(is_user_defined_tag t true) then
      (setError ("Unrecognized individual tag " ++ t) e, .none)
    else parse_romanized_loop e indiId nm rest

/-- The loop over a NAME record's children (lines 426-488).  Note the NOTE
and SOUR arms read `child` (the NAME record, `nameRec`), not `name_child` —
transcribed as in the source. -/
def parse_name_children (e : Engine) (indiId : String) (nameRec : Record) (nm : Name) :
    List Record → Engine × PyResult Name
  | [] => (e, .ok nm)
  | c :: rest =>
    let t := c.data.tag
    if t = "TYPE" then
      if !(nameTypeValues.contains c.data.lineValue) then
        (setError ("Invalid name type " ++ c.data.lineValue ++
          " for individual " ++ indiId) e, .none)
      else parse_name_children e indiId nameRec
        { nm with nameType := c.data.lineValue } rest
    else if t = "NOTE" then
      parse_name_children e indiId nameRec
        { nm with nameNote := nameRec.data.lineValue } rest
    else if t = "SOUR" then
      parse_name_children e indiId nameRec
        { nm with nameSourceCitation := nameRec.data.crossRefPtr } rest
    else if t = "FONE" then
      let fonePieces := parse_name_pieces c
      let nm := { nm with phoneticValue := c.data.lineValue,
                          phoneticNamePieces := fonePieces }
      match parse_phonetic_loop e indiId nm c.children with
      | (e1, .ok nm1) => parse_name_children e1 indiId nameRec nm1 rest
      | (e1, .none) => (e1, .none)
      | (e1, .crash) => (e1, .crash)
    else if t = "ROMN" then
      let romnPieces := parse_name_pieces c
      let nm := { nm with romanizedValue := c.data.lineValue,
                          romanizedNamePieces := romnPieces }
      match parse_romanized_loop e indiId nm c.children with
      | (e1, .ok nm1) => parse_name_children e1 indiId nameRec nm1 rest
      | (e1, .none) => (e1, .none)
      | (e1, .crash) => (e1, .crash)
    else if ["NPFX", "GIVN", "NICK", "SPFX", "SURN", "NSFX"].contains t then
      parse_name_children e indiId nameRec nm rest
    else if !(is_user_defined_tag t true) then
      (setError ("Unrecognized individual tag " ++ t) e, .none)
    else parse_name_children e indiId nameRec nm rest

/-- The loop over an individual event record's children (lines 503-537). -/
def parse_event_children (e : Engine) (ev : IndividualEvent) :
    List Record → Engine × PyResult IndividualEvent
  | [] => (e, .ok ev)
  | c :: rest =>
    let t := c.data.tag
    if t = "TYPE" then
      parse_event_children e { ev with genericEventType := c.data.lineValue } rest
    else if t = "DATE" then
      match parse_date e c.data with
      | (e1, .ok dt) => parse_event_children e1 { ev with eventDate := some dt } rest
      | (e1, .none) => (e1, .none)
      | (e1, .crash) => (e1, .crash)
    else if t = "PLAC" then parse_event_children e ev rest
    else if t = "ADDR" then
      match parse_address e c with
      | (e1, .ok a) => parse_event_children e1 { ev with eventAddress := some a } rest
      | (e1, .none) => (e1, .none)
      | (e1, .crash) => (e1, .crash)
    else if ["AGNC", "RELI", "CAUS", "RESN", "NOTE", "SOUR", "OBJE"].contains t then
      parse_event_children e ev rest
    else if !(is_user_defined_tag t true) then
      (setError ("Unrecognized individual tag " ++ t) e, .none)
    else parse_event_children e ev rest

/-- The loop over an INDI record's children (lines 418-541). -/
def parse_indi_children (e : Engine) (recData : Rec) (ind : Individual) :
    List Record → Engine × PyResult Individual
  | [] => (e, .ok ind)
  | c :: rest =>
    let t := c.data.tag
    if t = "NAME" then
      let lineValue := pyReplace c.data.lineValue "/" ""
      let pieces := parse_name_pieces c
      let nm : Name := { value := lineValue, namePieces := pieces }
      match parse_name_children e recData.crossRefId c nm c.children with
      | (e1, .ok nm1) =>
        parse_indi_children e1 recData { ind with names := ind.names ++ [nm1] } rest
      | (e1, .none) => (e1, .none)
      | (e1, .crash) => (e1, .crash)
    else if t = "SEX" then
      if c.data.lineValue = "" then
        parse_indi_children e recData { ind with sex := "U" } rest
      else if !(sexValues.contains c.data.lineValue) then
        (setError ("Invalid sex " ++ c.data.lineValue ++ " for individual " ++
          recData.crossRefId) e, .none)
      else parse_indi_children e recData { ind with sex := c.data.lineValue } rest
    else
      match eventTypeIndividual.find? (fun p => p.1 == t) with
      | some p =>
        let ev : IndividualEvent :=
          { explicitEventType := p.2, lineValue := c.data.lineValue }
        match parse_event_children e ev c.children with
        | (e1, .ok ev1) =>
          parse_indi_children e1 recData
            { ind with individualEvents := ind.individualEvents ++ [ev1] } rest
        | (e1, .none) => (e1, .none)
        | (e1, .crash) => (e1, .crash)
      | Option.none => parse_indi_children e recData ind rest

/-- The loop over the INDI bucket (lines 416-544): builds each Individual
and attaches it as the `record.individual` back-pointer (`indiBuilt`). -/
def parse_indi_records_go (e : Engine) (forest : List Record)
    (acc : List Individual) : List Nat → Engine × PyResult (List Individual)
  | [] => (e, .ok acc)
  | i :: rest =>
    match nodeAt forest i with
    | Option.none => (e, .crash)
    | some node =>
      let ind : Individual := { crossReferenceId := node.data.crossRefId }
      match parse_indi_children e node.data ind node.children with
      | (e1, .ok ind1) =>
        let e2 := { e1 with indiBuilt := e1.indiBuilt ++ [(i, ind1)] }
        parse_indi_records_go e2 forest (acc ++ [ind1]) rest
      | (e1, .none) => (e1, .none)
      | (e1, .crash) => (e1, .crash)

/-- parse_engine.ParseEngine.parse_indi_records. -/
def parse_indi_records (e : Engine) (forest : List Record) :
    Engine × PyResult (List Individual) :=
  parse_indi_records_go e forest [] e.indiRecords

/-! ## parse_fam_records (parse_engine.py lines 305-379) -/

/-- One iteration of the loop over a FAM record's children (lines 321-375). -/
def parse_fam_child (e : Engine) (famId : String) (fam : Family)
    (child : Record) : Engine × PyResult Family :=
  let t := child.data.tag
  let childPointer := child.data.crossRefPtr
  if t = "RESN" then
    if !(restrictionValues.contains child.data.lineValue) then
      (setError ("Invalid restriction notice " ++ child.data.lineValue ++
        " for family " ++ famId) e, .none)
    else (e, .ok { fam with restrictionNotice := child.data.lineValue })
  else if ["ANUL", "CENS", "DIV", "DIVF", "ENGA", "MARB", "MARC", "MARR",
      "MARL", "MARS", "RESI", "EVEN"].contains t then
    (e, .ok fam)
  else if t = "HUSB" || t = "WIFE" || t = "CHIL" then
    match lookupRef e childPointer with
    | some j =>
      match lookupIndi e j with
      | Option.none =>
        (setError ("The record " ++ recStr child.data ++
          " references an individual which does not exist") e, .none)
      | some ind =>
        if t = "HUSB" then (e, .ok { fam with parentOne := some ind })
        else if t = "WIFE" then (e, .ok { fam with parentTwo := some ind })
        else (e, .ok { fam with children := fam.children ++ [ind] })
    | Option.none =>
      (setError ("The record " ++ recStr child.data ++
        " references a record which does not exist") e, .none)
  else if ["NCHI", "SUBM", "REFN", "RIN"].contains t then (e, .ok fam)
  else if !(is_user_defined_tag t true) then
    (setError ("Unrecognized family tag " ++ t) e, .none)
  else (e, .ok fam)

/-- The loop over a FAM record's children. -/
def parse_fam_children (e : Engine) (famId : String) (fam : Family) :
    List Record → Engine × PyResult Family
  | [] => (e, .ok fam)
  | c :: rest =>
    match parse_fam_child e famId fam c with
    | (e1, .ok f1) => parse_fam_children e1 famId f1 rest
    | (e1, .none) => (e1, .none)
    | (e1, .crash) => (e1, .crash)

/-- The loop over the FAM bucket (lines 319-377). -/
def parse_fam_records_go (e : Engine) (forest : List Record)
    (acc : List Family) : List Nat → Engine × PyResult (List Family)
  | [] => (e, .ok acc)
  | i :: rest =>
    match nodeAt forest i with
    | Option.none => (e, .crash)
    | some node =>
      match parse_fam_children e node.data.crossRefId
          { crossReferenceId := node.data.crossRefId } node.children with
      | (e1, .ok f) => parse_fam_records_go e1 forest (acc ++ [f]) rest
      | (e1, .none) => (e1, .none)
      | (e1, .crash) => (e1, .crash)

/-- parse_engine.ParseEngine.parse_fam_records. -/
def parse_fam_records (e : Engine) (forest : List Record) :
    Engine × PyResult (List Family) :=
  parse_fam_records_go e forest [] e.famRecords

/-! ## run and the File.__init__ pipeline (parse_engine.py lines 36-50,
file.py lines 26-32) -/

/-- What a `self._engine.run(callback)` call leads to. -/
inductive RunOut (α : Type) : Type where
  | ok (e : Engine) (res : Option α) : RunOut α
  | exit (e : Engine) : RunOut α
  | crash (e : Engine) : RunOut α
deriving Repr

/-- parse_engine.ParseEngine.run: executes the callback only when no error
is recorded; if the callback leaves an error it dumps the diagnostics and
calls sys.exit(1) (`.exit`); with an error already present it returns None
without executing anything. -/
def run {α : Type} (e : Engine) (f : Engine → Engine × PyResult α) : RunOut α :=
  if e.error.isNone then
    match f e with
    | (e1, .ok a) => if e1.error.isNone then .ok e1 (some a) else .exit e1
    | (e1, .none) => if e1.error.isNone then .ok e1 Option.none else .exit e1
    | (e1, .crash) => .crash e1
  else .ok e Option.none

/-- The outcome of File.__init__'s four run calls. -/
inductive PipeOut : Type where
  | done (e : Engine) : PipeOut
  | exit (e : Engine) : PipeOut
  | crash (e : Engine) : PipeOut
deriving Repr

/-- The engine state at the end of the pipeline. -/
def pipeEngine : PipeOut → Engine
  | .done e => e
  | .exit e => e
  | .crash e => e

/-- File.__init__: run parse_raw_lines, parse_header, parse_indi_records,
parse_fam_records in sequence on a fresh engine.  (`getD []` is a model
artifact: parse_raw_lines returns None only with the error slot set, in
which case `run` already exited.) -/
def pipeline (lines : List String) : PipeOut :=
  let e0 : Engine := {}
  match run e0 (fun e => parse_raw_lines e lines) with
  | .exit e => .exit e
  | .crash e => .crash e
  | .ok e recordsOpt =>
    let forest := recordsOpt.getD []
    match run e (fun e => parse_header e forest) with
    | .exit e => .exit e
    | .crash e => .crash e
    | .ok e _ =>
      match run e (fun e => parse_indi_records e forest) with
      | .exit e => .exit e
      | .crash e => .crash e
      | .ok e _ =>
        match run e (fun e => parse_fam_records e forest) with
        | .exit e => .exit e
        | .crash e => .crash e
        | .ok e _ => .done e

/-! ## The hierarchy-builder invariant: depth equals level, pre-order equals
line order.  `flatState` abstracts an intermediate builder state as the
pre-order-with-depth traversal the final forest will have; `frameLevels`
lists the levels of the open frames (top-first). -/

/-- The levels of the frames on the builder stack (top-first). -/
def frameLevels (stack : List Frame) : List Nat := stack.map (fun f => f.1.level)

/-- Pre-order contents of the open frames (bottom-first), rooted at depth `d`. -/
def sfa (d : Nat) : List Frame → List (Nat × Rec)
  | [] => []
  | (r, cs) :: rest => (d, r) :: (flattenDF (d + 1) cs ++ sfa (d + 1) rest)

/-- The pre-order-with-depth traversal the final forest will have if the
scan stopped at state `(stack, out)`. -/
def flatState (stack : List Frame) (out : List Record) : List (Nat × Rec) :=
  flattenDF 0 out ++ sfa 0 stack.reverse

theorem flattenDF_append (d : Nat) (xs ys : List Record) :
    flattenDF d (xs ++ ys) = flattenDF d xs ++ flattenDF d ys := by
  induction xs with
  | nil => simp [flattenDF]
  | cons t ts ih => simp [flattenDF, ih]

theorem sfa_append_singleton (d : Nat) (bs : List Frame) (r : Rec) (cs : List Record) :
    sfa d (bs ++ [(r, cs)]) =
      sfa d bs ++ ((d + bs.length, r) :: flattenDF (d + bs.length + 1) cs) := by
  induction bs generalizing d with
  | nil => simp [sfa]
  | cons f rest ih =>
    obtain ⟨r2, cs2⟩ := f
    simp only [List.cons_append, sfa, List.append_eq]
    rw [ih (d + 1)]
    have harith : d + 1 + rest.length = d + (rest.length + 1) := by omega
    have harith2 : d + 1 + rest.length + 1 = d + (rest.length + 1) + 1 := by omega
    simp [harith, harith2, List.append_assoc]

theorem popToAttach_flat (lvl : Nat) (stack : List Frame) :
    ∀ (out : List Record) (t : Record),
    flattenDF 0 (popToAttach lvl t stack out).2 ++
        sfa 0 (popToAttach lvl t stack out).1.reverse =
      flattenDF 0 out ++ sfa 0 stack.reverse ++ flattenD stack.length t := by
  induction stack with
  | nil =>
    intro out t
    simp [popToAttach, sfa, flattenDF_append, flattenDF]
  | cons f rest ih =>
    intro out t
    obtain ⟨r, cs⟩ := f
    by_cases h : lvl ≤ r.level
    · simp only [popToAttach, h, if_pos, ih]
      simp [sfa_append_singleton, flattenD, flattenDF_append, flattenDF]
    · simp only [popToAttach, h, if_neg, not_false_iff]
      simp [sfa_append_singleton, flattenD, flattenDF_append, flattenDF]

theorem popTo_flat (lvl : Nat) (stack : List Frame) (out : List Record) :
    flattenDF 0 (popTo lvl stack out).2 ++ sfa 0 (popTo lvl stack out).1.reverse =
      flatState stack out := by
  match stack with
  | [] => simp [popTo, flatState]
  | (r, cs) :: rest =>
    by_cases h : lvl ≤ r.level
    · simp only [popTo, h, if_pos, popToAttach_flat, flatState]
      simp [sfa_append_singleton, flattenD, flattenDF_append, flattenDF]
    · simp [popTo, h, flatState]

theorem range_reverse_succ (n : Nat) :
    (List.range (n + 1)).reverse = n :: (List.range n).reverse := by
  simp [List.range_succ]

theorem popToAttach_levels (lvl : Nat) (stack : List Frame) :
    ∀ (out : List Record) (t : Record) (m : Nat),
    frameLevels stack = (List.range m).reverse → lvl ≤ m →
    frameLevels (popToAttach lvl t stack out).1 = (List.range lvl).reverse := by
  induction stack with
  | nil =>
    intro out t m hm hle
    have hm0 : m = 0 := by
      by_contra hne
      obtain ⟨m', rfl⟩ := Nat.exists_eq_succ_of_ne_zero hne
      rw [range_reverse_succ] at hm
      exact absurd hm (by simp [frameLevels])
    subst hm0
    have : lvl = 0 := Nat.le_zero.mp hle
    subst this
    simp [popToAttach, frameLevels]
  | cons f rest ih =>
    intro out t m hm hle
    obtain ⟨r, cs⟩ := f
    have hm0 : m ≠ 0 := by
      intro h
      subst h
      exact absurd hm (by simp [frameLevels])
    obtain ⟨m', rfl⟩ := Nat.exists_eq_succ_of_ne_zero hm0
    rw [range_reverse_succ] at hm
    simp only [frameLevels, List.map_cons, List.cons.injEq] at hm
    obtain ⟨hr, hrest⟩ := hm
    by_cases h : lvl ≤ r.level
    · simp only [popToAttach, h, if_pos]
      exact ih out (Record.node r (cs ++ [t])) m' hrest (by omega)
    · have hlvl : lvl = m' + 1 := by omega
      simp only [popToAttach, h, if_neg, not_false_iff]
      subst hlvl
      simp [frameLevels, range_reverse_succ, hr, hrest]

theorem popTo_levels (lvl : Nat) (stack : List Frame) (out : List Record) (k : Nat)
    (hk : frameLevels stack = (List.range k).reverse) (hle : lvl ≤ k) :
    frameLevels (popTo lvl stack out).1 = (List.range lvl).reverse := by
  match stack with
  | [] =>
    have hk0 : k = 0 := by
      by_contra hne
      obtain ⟨k', rfl⟩ := Nat.exists_eq_succ_of_ne_zero hne
      rw [range_reverse_succ] at hk
      exact absurd hk (by simp [frameLevels])
    subst hk0
    have : lvl = 0 := Nat.le_zero.mp hle
    subst this
    simp [popTo, frameLevels]
  | (r, cs) :: rest =>
    have hk0 : k ≠ 0 := by
      intro h
      subst h
      exact absurd hk (by simp [frameLevels])
    obtain ⟨k', rfl⟩ := Nat.exists_eq_succ_of_ne_zero hk0
    rw [range_reverse_succ] at hk
    simp only [frameLevels, List.map_cons, List.cons.injEq] at hk
    obtain ⟨hr, hrest⟩ := hk
    by_cases h : lvl ≤ r.level
    · simp only [popTo, h, if_pos]
      exact popToAttach_levels lvl rest out (Record.node r cs) k' hrest (by omega)
    · have hlvl : lvl = k' + 1 := by omega
      simp only [popTo, h, if_neg, not_false_iff]
      subst hlvl
      simp [frameLevels, range_reverse_succ, hr, hrest]

theorem frameLevels_length (stack : List Frame) (k : Nat)
    (h : frameLevels stack = (List.range k).reverse) : stack.length = k := by
  have := congrArg List.length h
  simpa [frameLevels] using this

/-- The scan invariant: folding well-formed records through the builder
appends exactly `(level, record)` pairs to the abstract traversal, and the
open frame levels stay `k-1, …, 1, 0`. -/
theorem fold_inv (rs : List Rec) :
    ∀ (stack : List Frame) (out : List Record) (k : Nat),
    frameLevels stack = (List.range k).reverse → wfFrom k rs →
    flatState (rs.foldl stepRec (stack, out)).1 (rs.foldl stepRec (stack, out)).2 =
        flatState stack out ++ rs.map (fun r => (r.level, r)) ∧
      ∃ k', frameLevels (rs.foldl stepRec (stack, out)).1 = (List.range k').reverse := by
  induction rs with
  | nil =>
    intro stack out k hk _
    exact ⟨by simp, k, hk⟩
  | cons r rs ih =>
    intro stack out k hk hwf
    obtain ⟨hr, hwf'⟩ := hwf
    set so := popTo r.level stack out with hso
    have hlev : frameLevels so.1 = (List.range r.level).reverse :=
      popTo_levels r.level stack out k hk hr
    have hlen : so.1.length = r.level := frameLevels_length so.1 r.level hlev
    have hflat : flattenDF 0 so.2 ++ sfa 0 so.1.reverse = flatState stack out :=
      popTo_flat r.level stack out
    have hstep : stepRec (stack, out) r = ((r, []) :: so.1, so.2) := rfl
    have hlev2 : frameLevels ((r, []) :: so.1) = (List.range (r.level + 1)).reverse := by
      simp [frameLevels, range_reverse_succ] at hlev ⊢
      exact hlev
    have hflat2 : flatState ((r, []) :: so.1) so.2 =
        flatState stack out ++ [(r.level, r)] := by
      unfold flatState
      rw [List.reverse_cons, sfa_append_singleton]
      simp only [flattenDF, List.length_reverse, hlen, Nat.zero_add]
      rw [← List.append_assoc, hflat]
      simp [flatState, List.append_assoc]
    have := ih ((r, []) :: so.1) so.2 (r.level + 1) hlev2 hwf'
    obtain ⟨h1, k', h2⟩ := this
    refine ⟨?_, k', ?_⟩
    · simp only [List.foldl_cons, hstep] at *
      rw [h1, hflat2]
      simp
    · simp only [List.foldl_cons, hstep] at *
      exact h2

theorem popToAttach_zero_stack (stack : List Frame) :
    ∀ (t : Record) (out : List Record), (popToAttach 0 t stack out).1 = [] := by
  induction stack with
  | nil => intro t out; simp [popToAttach]
  | cons f rest ih =>
    intro t out
    obtain ⟨r, cs⟩ := f
    simp [popToAttach, ih]

theorem popTo_zero_stack (stack : List Frame) (out : List Record) :
    (popTo 0 stack out).1 = [] := by
  match stack with
  | [] => simp [popTo]
  | (r, cs) :: rest => simp [popTo, popToAttach_zero_stack]

/-- Flushing the final builder state yields a forest whose traversal is the
abstract state. -/
theorem finishForest_flat (stack : List Frame) (out : List Record) :
    flattenDF 0 (finishForest (stack, out)) = flatState stack out := by
  have h := popTo_flat 0 stack out
  rw [popTo_zero_stack] at h
  simpa [finishForest, sfa] using h

/-- The hierarchy builder on level-well-formed records: the pre-order
traversal with depths is exactly the input sequence paired with its levels. -/
theorem buildForest_flatten (rs : List Rec) (h : wfFrom 0 rs) :
    flattenDF 0 (buildForest rs) = rs.map (fun r => (r.level, r)) := by
  have := fold_inv rs [] [] 0 (by simp [frameLevels]) h
  obtain ⟨h1, _⟩ := this
  have h2 : flatState ([] : List Frame) ([] : List Record) = [] := by
    simp [flatState, sfa, flattenDF]
  rw [h2, List.nil_append] at h1
  calc flattenDF 0 (buildForest rs)
      = flatState (rs.foldl stepRec ([], [])).1 (rs.foldl stepRec ([], [])).2 := by
        unfold buildForest
        rw [finishForest_flat]
    _ = rs.map (fun r => (r.level, r)) := h1

/-- parse_raw_lines is tokenization followed by the pure hierarchy
construction; engine evolution is identical. -/
theorem parse_raw_lines_split (ls : List String) :
    ∀ (e : Engine) (i : Nat) (stack : List Frame) (out : List Record)
      (e' : Engine) (rs : List Rec),
    tokenize_lines_go e i ls = (e', .ok rs) →
    parse_raw_lines_go e i stack out ls =
      (e', .ok (finishForest (rs.foldl stepRec (stack, out)))) := by
  induction ls with
  | nil =>
    intro e i stack out e' rs htok
    simp only [tokenize_lines_go, Prod.mk.injEq, PyResult.ok.injEq] at htok
    obtain ⟨rfl, rfl⟩ := htok
    simp [parse_raw_lines_go]
  | cons l ls ih =>
    intro e i stack out e' rs htok
    unfold tokenize_lines_go at htok
    unfold parse_raw_lines_go
    match hline : parse_raw_line e l (i + 1) with
    | (e1, .ok r) =>
      rw [hline] at htok
      dsimp only at htok ⊢
      match hrest : tokenize_lines_go e1 (i + 1) ls with
      | (e2, .ok rs') =>
        rw [hrest] at htok
        dsimp only at htok
        simp only [Prod.mk.injEq, PyResult.ok.injEq] at htok
        obtain ⟨rfl, rfl⟩ := htok
        rw [ih e1 (i + 1) _ _ _ rs' hrest]
        rfl
      | (e2, .none) =>
        rw [hrest] at htok
        dsimp only at htok
        simp at htok
      | (e2, .crash) =>
        rw [hrest] at htok
        dsimp only at htok
        simp at htok
    | (e1, .none) =>
      rw [hline] at htok
      dsimp only at htok
      simp at htok
    | (e1, .crash) =>
      rw [hline] at htok
      dsimp only at htok
      simp at htok

/-- Unconditional version of the scan invariant, forgetting depths: the
builder appends records to the abstract traversal in line order. -/
theorem fold_proj (rs : List Rec) :
    ∀ (stack : List Frame) (out : List Record),
    (flatState (rs.foldl stepRec (stack, out)).1
        (rs.foldl stepRec (stack, out)).2).map Prod.snd =
      (flatState stack out).map Prod.snd ++ rs := by
  induction rs with
  | nil => intro stack out; simp
  | cons r rs ih =>
    intro stack out
    set so := popTo r.level stack out with hso
    have hflat : flattenDF 0 so.2 ++ sfa 0 so.1.reverse = flatState stack out :=
      popTo_flat r.level stack out
    have hstep : stepRec (stack, out) r = ((r, []) :: so.1, so.2) := rfl
    have hflat2 : flatState ((r, []) :: so.1) so.2 =
        flatState stack out ++ [(so.1.length, r)] := by
      unfold flatState
      rw [List.reverse_cons, sfa_append_singleton]
      simp only [flattenDF, List.length_reverse, Nat.zero_add]
      rw [← List.append_assoc, hflat]
      simp [flatState, List.append_assoc]
    simp only [List.foldl_cons, hstep, ih, hflat2]
    simp

/-- Pre-order traversal of the built forest lists the records in line
order, with no assumption on the levels. -/
theorem preorder_snd (rs : List Rec) :
    (flattenDF 0 (buildForest rs)).map Prod.snd = rs := by
  have h := fold_proj rs [] []
  have h2 : flatState ([] : List Frame) ([] : List Record) = [] := by
    simp [flatState, sfa, flattenDF]
  rw [h2] at h
  simp only [List.map_nil, List.nil_append] at h
  calc (flattenDF 0 (buildForest rs)).map Prod.snd
      = (flatState (rs.foldl stepRec ([], [])).1 (rs.foldl stepRec ([], [])).2).map
          Prod.snd := by
        unfold buildForest
        rw [finishForest_flat]
    _ = rs := h

/-- The node list and the depth traversal visit the same records. -/
theorem nodeListF_data_eq (d : Nat) (f : List Record) :
    (nodeListF f).map Record.data = (flattenDF d f).map Prod.snd := by
  match f with
  | [] => simp [nodeListF, flattenDF]
  | (Record.node r cs) :: ts =>
    have h1 := nodeListF_data_eq (d + 1) cs
    have h2 := nodeListF_data_eq d ts
    simp only [nodeListF, nodeList, flattenDF, flattenD, List.map_append,
      List.map_cons, Record.data, List.cons_append]
    rw [h1, h2]
termination_by sizeOf f
decreasing_by
  all_goals simp
  all_goals omega

/-- The registration key of a record (its line number) resolves to its
pre-order position: `nodeAt forest i` is the record of line `i`. -/
theorem preorder_data_eq (rs : List Rec) :
    (nodeListF (buildForest rs)).map Record.data = rs := by
  rw [nodeListF_data_eq 0, preorder_snd]

/-- C1: For every input sequence of raw lines that all tokenize
successfully (`tokenize_lines … = ok`) and whose levels are well-formed
(the first line has level 0 and each subsequent line's level is at most the
previous line's level plus 1, i.e. `wfFrom 0`), parse_raw_lines returns the
forest built by the stack discipline, and the pre-order traversal of that
forest paired with depths (number of ancestors) is exactly the token-order
record sequence paired with its levels: every Record's depth equals its
level and pre-order reproduces the original line order. -/
theorem parse_raw_lines_depth_and_preorder (lines : List String) (e e' : Engine)
    (recs : List Rec)
    (htok : tokenize_lines e lines = (e', .ok recs))
    (hwf : wfFrom 0 recs) :
    parse_raw_lines e lines = (e', .ok (buildForest recs)) ∧
      flattenDF 0 (buildForest recs) = recs.map (fun r => (r.level, r)) := by
  constructor
  · unfold parse_raw_lines
    rw [parse_raw_lines_split lines e 0 [] [] e' recs htok]
    rfl
  · exact buildForest_flatten recs hwf

/-- The three lines of the C1 witness. -/
def c1Lines : List String := ["0 HEAD", "1 SOUR x", "0 TRLR"]

/-- Their tokenizations. -/
def c1Recs : List Rec :=
  [{ level := 0, tag := "HEAD" }, { level := 1, tag := "SOUR", lineValue := "x" },
   { level := 0, tag := "TRLR" }]

/-- The engine after tokenizing them. -/
def c1Eng : Engine := { headerIdx := some 1 }

/-- Witness for C1: the hypotheses hold and the conclusion follows at a
concrete three-line input. -/
theorem parse_raw_lines_depth_and_preorder_witness :
    tokenize_lines {} c1Lines = (c1Eng, .ok c1Recs) ∧
    wfFrom 0 c1Recs ∧
    (parse_raw_lines {} c1Lines = (c1Eng, .ok (buildForest c1Recs)) ∧
      flattenDF 0 (buildForest c1Recs) = c1Recs.map (fun r => (r.level, r))) :=
  ⟨by decide, by decide,
    parse_raw_lines_depth_and_preorder c1Lines {} c1Eng c1Recs (by decide) (by decide)⟩

/-- C2 (code bug): on the line `0 @X@ SSN` the obsolete-tag handling never
fires.  SSN (and FSID) are members of enums.Tag as well as of
enums.ObsoleteTag, so `is_valid_tag` accepts the token first and the
`is_obsolete_tag` branch of parse_raw_line (warning + ignorable) is dead
code: the line is accepted with tag SSN, no warning is appended, the record
is not marked ignorable (and, as the claim says, it is not registered in the
INDI/FAM buckets). -/
theorem obsolete_tag_line_no_warning :
    parse_raw_line {} "0 @X@ SSN" 1 =
      ({ refs := [("@X@", 1)] },
       PyResult.ok { level := 0, tag := "SSN", crossRefId := "@X@" }) ∧
    ({ level := 0, tag := "SSN", crossRefId := "@X@" } : Rec).ignorable = false ∧
    ({ refs := [("@X@", 1)] } : Engine).warnings = [] ∧
    ({ refs := [("@X@", 1)] } : Engine).indiRecords = [] ∧
    ({ refs := [("@X@", 1)] } : Engine).famRecords = [] ∧
    is_obsolete_tag "SSN" = true ∧ is_valid_tag "SSN" = true := by decide

/-- C4 (code bug): parse_raw_line reaches out-of-range token accesses
(Python IndexError, modelled `.crash`) on an empty line (`tokens[0]`), on a
line with only a level token (`tokens[1]`), and on a line whose level and
cross-reference id are followed by no tag token (`tokens[2]`), instead of
recording a fatal condition and returning None. -/
theorem parse_raw_line_short_line_crashes :
    (parse_raw_line {} "" 1).2 = PyResult.crash ∧
    (parse_raw_line {} "0" 1).2 = PyResult.crash ∧
    (parse_raw_line {} "0 @X@" 1).2 = PyResult.crash := by decide

/-- C8 (code bug): parse_date on a DATE record with an empty line value
returns None with the fatal-error slot still unset: the Python falsiness
check `if not date_line_value: return None` fires for the empty string
before the `no date value provided` error could be recorded. -/
theorem parse_date_empty_value_silent_none :
    ({ level := 1, tag := "DATE" } : Rec).lineValue = "" ∧
    parse_date {} { level := 1, tag := "DATE" } = ({}, PyResult.none) ∧
    ({} : Engine).error = Option.none ∧ ({} : Engine).errorWrites = 0 := by decide

/-- Counterexample to C5 as stated: the parenthesized date value `( foo )`
is classified as kind PHRASE, no warning is appended, and yet the returned
Date's phrase field is empty — parse_date never fills `phrase` on the
parenthesized path. -/
theorem date_phrase_paren_counterexample :
    parse_date {} { level := 1, tag := "DATE", lineValue := "( foo )" } =
      ({}, PyResult.ok { dateType := "phrase" }) ∧
    ({ dateType := "phrase" } : DateE).dateType = "phrase" ∧
    ({ dateType := "phrase" } : DateE).phrase = "" ∧
    ({} : Engine).warnings = [] := by decide

/-- Counterexample to C10 as stated: on `0 NOTE John @P1@` the final token
is accepted as a cross-reference pointer, and the preceding value token was
appended together with its separating space, so line_value is `"John "`
with a trailing space. -/
theorem line_value_trailing_space_counterexample :
    (parse_raw_line {} "0 NOTE John @P1@" 1).2 =
      PyResult.ok { level := 0, tag := "NOTE", lineValue := "John ",
                    crossRefPtr := "@P1@" } ∧
    "John " ≠ "John" ∧ pyEndsWith "John " " " = true := by decide

/-! ## C3: the three-line INDI example -/

/-- Chains the tokenizer/hierarchy stage and the individual-parsing stage
directly (the header stage touches neither the forest nor the INDI bucket). -/
def runIndiStage (lines : List String) : Engine × PyResult (List Individual) :=
  match parse_raw_lines ({} : Engine) lines with
  | (e, PyResult.ok forest) => parse_indi_records e forest
  | (e, PyResult.none) => (e, PyResult.none)
  | (e, PyResult.crash) => (e, PyResult.crash)

/-- The three input lines of the C3 example. -/
def c3Lines : List String := ["0 @I1@ INDI", "1 NAME John /Smith/", "1 SEX M"]

/-- The same example with the surname span left unterminated. -/
def c3LinesOpen : List String := ["0 @I1@ INDI", "1 NAME John /Smith"]

/-- The Individual the engine builds from the C3 example. -/
def c3Individual : Individual :=
  { crossReferenceId := "@I1@", sex := "M", names := [{ value := "John Smith" }] }

/-- Counterexample to C3 as stated: the parse yields exactly one
Individual, but its stored cross-reference id is the full token `@I1@`
(not `I1`) and its single Name's surname piece is empty (not `Smith`) —
name pieces are only populated from explicit SURN sub-records, which this
input lacks. -/
theorem three_line_individual_counterexample :
    (runIndiStage c3Lines).2 = PyResult.ok [c3Individual] ∧
    c3Individual.names = [{ value := "John Smith" }] ∧
    ({ value := "John Smith" } : Name).namePieces.surname = "" ∧
    ("" : String) ≠ "Smith" ∧
    c3Individual.crossReferenceId = "@I1@" ∧
    ("@I1@" : String) ≠ "I1" := by
  refine ⟨by rfl, by decide, by decide, by decide, by decide, by decide⟩

/-- C3 (amended): parsing the three lines yields exactly one Individual
whose stored cross-reference id is the full token `@I1@`, whose sex is MALE
(`M`), and whose single Name has primary value `John Smith` (all `/`
characters are deleted from the joined line value by global replacement)
and an **empty** surname piece (pieces come only from SURN sub-records);
an unterminated `/`-opened span is not a fatal condition — the open-span
variant parses with no error and the same primary value. -/
theorem three_line_individual_parse :
    runIndiStage c3Lines =
      ({ refs := [("@I1@", 1)], indiRecords := [1],
         indiBuilt := [(1, c3Individual)] },
       PyResult.ok [c3Individual]) ∧
    c3Individual.sex = "M" ∧
    c3Individual.names = [{ value := "John Smith" }] ∧
    ({ value := "John Smith" } : Name).namePieces.surname = "" ∧
    (runIndiStage c3Lines).1.error = Option.none ∧
    (runIndiStage c3LinesOpen).1.error = Option.none ∧
    (runIndiStage c3LinesOpen).2 =
      PyResult.ok [{ crossReferenceId := "@I1@",
                     names := [{ value := "John Smith" }] }] := by
  refine ⟨by rfl, by decide, by decide, by decide, by rfl, by rfl, by rfl⟩

/-! ## C5/C7: what a successful parse_date can return -/

theorem parse_date_one_token_cases (e : Engine) (record : Rec) (dlv t0 : String)
    (d : DateE) (e' : Engine) (d' : DateE) (hd : d.phrase = "")
    (h : parse_date_one_token e record { dateType := "phrase" } dlv t0 d = (e', .ok d')) :
    (e' = e ∧ d'.phrase = "") ∨
      (∃ w, e' = addWarning w e ∧ d' = { dateType := "phrase", phrase := dlv }) := by
  unfold parse_date_one_token at h
  dsimp only at h
  split_ifs at h <;>
    simp only [Prod.mk.injEq, PyResult.ok.injEq, reduceCtorEq, and_false] at h <;>
    obtain ⟨rfl, rfl⟩ := h.symm <;>
    first
      | exact Or.inr ⟨_, rfl, rfl⟩
      | exact Or.inl ⟨rfl, hd⟩

theorem parse_date_two_tokens_cases (e : Engine) (record : Rec) (dlv t0 t1 : String)
    (d : DateE) (e' : Engine) (d' : DateE) (hd : d.phrase = "")
    (h : parse_date_two_tokens e record { dateType := "phrase" } dlv t0 t1 d = (e', .ok d')) :
    (e' = e ∧ d'.phrase = "") ∨
      (∃ w, e' = addWarning w e ∧ d' = { dateType := "phrase", phrase := dlv }) := by
  unfold parse_date_two_tokens at h
  dsimp only at h
  split_ifs at h <;>
    simp only [Prod.mk.injEq, PyResult.ok.injEq, reduceCtorEq, and_false] at h <;>
    obtain ⟨rfl, rfl⟩ := h.symm <;>
    first
      | exact Or.inr ⟨_, rfl, rfl⟩
      | exact Or.inl ⟨rfl, hd⟩

theorem parse_date_three_tokens_cases (e : Engine) (record : Rec) (dlv t0 t1 t2 : String)
    (d : DateE) (e' : Engine) (d' : DateE) (hd : d.phrase = "")
    (h : parse_date_three_tokens e record { dateType := "phrase" } dlv t0 t1 t2 d = (e', .ok d')) :
    (e' = e ∧ d'.phrase = "") ∨
      (∃ w, e' = addWarning w e ∧ d' = { dateType := "phrase", phrase := dlv }) := by
  unfold parse_date_three_tokens at h
  dsimp only at h
  split_ifs at h <;>
    simp only [Prod.mk.injEq, PyResult.ok.injEq, reduceCtorEq, and_false] at h <;>
    obtain ⟨rfl, rfl⟩ := h.symm <;>
    first
      | exact Or.inr ⟨_, rfl, rfl⟩
      | exact Or.inl ⟨rfl, hd⟩

theorem strip_calendar_success (e : Engine) (r : Rec) (e1 : Engine) (dlv : String)
    (d1 : DateE)
    (h : strip_and_set_calendar_type e r {} = (e1, some (dlv, d1))) :
    e1 = e ∧ d1.phrase = "" ∧ d1.dateType = "regular" := by
  unfold strip_and_set_calendar_type at h
  dsimp only at h
  split_ifs at h <;>
    simp only [Prod.mk.injEq, Option.some.injEq, Prod.mk.injEq, reduceCtorEq,
      and_false] at h <;>
    obtain ⟨rfl, -, rfl⟩ := h <;>
    exact ⟨rfl, rfl, rfl⟩

theorem determine_date_type_success (e : Engine) (r : Rec) (tokens : List String)
    (e2 : Engine) (dtype : String)
    (h : determine_date_type e r tokens = (e2, some dtype)) : e2 = e := by
  unfold determine_date_type at h
  match tokens with
  | [] => simp at h
  | t0 :: rest =>
    dsimp only at h
    split_ifs at h <;>
      first
        | exact (congrArg Prod.fst h).symm
        | exact absurd (congrArg Prod.snd h) (by simp)

/-- Every successful parse_date either leaves the engine untouched and
returns a Date with empty phrase, or appends exactly one warning and
returns the warning-fallback Date: kind PHRASE carrying the (nonempty)
calendar-stripped line value as its phrase. -/
theorem parse_date_success_cases (e : Engine) (r : Rec) (e' : Engine) (d : DateE)
    (h : parse_date e r = (e', .ok d)) :
    (e' = e ∧ d.phrase = "") ∨
      (∃ w dlv, dlv ≠ "" ∧ e' = addWarning w e ∧
        d = { dateType := "phrase", phrase := dlv }) := by
  unfold parse_date at h
  dsimp only at h
  split at h
  next e1 hstrip =>
    exact absurd (congrArg Prod.snd h) (by simp)
  next e1 dlv d1 hstrip =>
    obtain ⟨rfl, hph, hty⟩ := strip_calendar_success _ r e1 dlv d1 hstrip
    by_cases hdlv : dlv = ""
    · rw [if_pos hdlv] at h
      exact absurd (congrArg Prod.snd h) (by simp)
    · rw [if_neg hdlv] at h
      by_cases hlen : (pySplit dlv).length = 0
      · rw [if_pos hlen] at h
        exact absurd (congrArg Prod.snd h) (by simp)
      · rw [if_neg hlen] at h
        split at h
        next e2 hdet =>
          split_ifs at h <;> exact absurd (congrArg Prod.snd h) (by simp)
        next e2 dtype hdet =>
          obtain rfl := determine_date_type_success _ r _ e2 dtype hdet
          by_cases hcal : (!calendarTypeValues.contains d1.calendar) = true
          · rw [if_pos hcal] at h
            exact absurd (congrArg Prod.snd h) (by simp)
          · rw [if_neg hcal] at h
            by_cases hgreg : d1.calendar = "@#DGREGORIAN@"
            · rw [if_pos hgreg] at h
              by_cases hreg : dtype = "regular"
              · rw [if_pos hreg] at h
                split at h
                next t0 _heq =>
                  rcases parse_date_one_token_cases _ r dlv t0 { d1 with dateType := dtype } e' d hph h with
                    hclean | ⟨w, hw, hd⟩
                  · exact Or.inl hclean
                  · exact Or.inr ⟨w, dlv, hdlv, hw, hd⟩
                next t0 t1 _heq =>
                  rcases parse_date_two_tokens_cases _ r dlv t0 t1 { d1 with dateType := dtype } e' d hph h with
                    hclean | ⟨w, hw, hd⟩
                  · exact Or.inl hclean
                  · exact Or.inr ⟨w, dlv, hdlv, hw, hd⟩
                next t0 t1 t2 _heq =>
                  rcases parse_date_three_tokens_cases _ r dlv t0 t1 t2 { d1 with dateType := dtype } e' d hph h with
                    hclean | ⟨w, hw, hd⟩
                  · exact Or.inl hclean
                  · exact Or.inr ⟨w, dlv, hdlv, hw, hd⟩
                next =>
                  simp only [Prod.mk.injEq, PyResult.ok.injEq] at h
                  obtain ⟨rfl, rfl⟩ := h
                  exact Or.inl ⟨rfl, hph⟩
              · rw [if_neg hreg] at h
                simp only [Prod.mk.injEq, PyResult.ok.injEq] at h
                obtain ⟨rfl, rfl⟩ := h
                exact Or.inl ⟨rfl, hph⟩
            · rw [if_neg hgreg] at h
              simp only [Prod.mk.injEq, PyResult.ok.injEq] at h
              obtain ⟨rfl, rfl⟩ := h
              exact Or.inl ⟨rfl, hph⟩

/-- C5 (amended): for every Date entity returned by parse_date, the phrase
field is non-empty iff a warning-fallback occurred (exactly one warning was
appended); a Date with non-empty phrase has kind PHRASE; and a Date with
empty phrase leaves the warning log unchanged.  (The claim as stated fails
in the other direction: a parenthesized value classified as kind PHRASE
carries an empty phrase — see the counterexample.) -/
theorem date_phrase_iff_warning (e : Engine) (r : Rec) (e' : Engine) (d : DateE)
    (h : parse_date e r = (e', .ok d)) :
    ((d.phrase ≠ "") ↔ e'.warnings.length = e.warnings.length + 1) ∧
    (d.phrase ≠ "" → d.dateType = "phrase") ∧
    (d.phrase = "" → e'.warnings = e.warnings) := by
  rcases parse_date_success_cases e r e' d h with ⟨rfl, hph⟩ | ⟨w, dlv, hdlv, rfl, rfl⟩
  · refine ⟨⟨fun hne => absurd hph hne, fun hlen => absurd hlen (by omega)⟩,
      fun hne => absurd hph hne, fun _ => rfl⟩
  · refine ⟨⟨fun _ => by simp [addWarning], fun _ => hdlv⟩,
      fun _ => rfl, fun hph => absurd hph hdlv⟩

/-- The DATE record of the C5 witness. -/
def c5Rec : Rec := { level := 1, tag := "DATE", lineValue := "BOGUS 1990" }

/-- The engine after the C5 witness parse: one warning appended. -/
def c5Eng : Engine :=
  { warnings := ["Invalid month BOGUS for date record 1 DATE BOGUS 1990"] }

/-- The Date the C5 witness parse returns. -/
def c5Date : DateE := { dateType := "phrase", phrase := "BOGUS 1990" }

/-- Witness for C5 at the concrete warning-fallback input `BOGUS 1990`. -/
theorem date_phrase_iff_warning_witness :
    parse_date {} c5Rec = (c5Eng, .ok c5Date) ∧
    (((c5Date.phrase ≠ "") ↔ c5Eng.warnings.length = ({} : Engine).warnings.length + 1) ∧
      (c5Date.phrase ≠ "" → c5Date.dateType = "phrase") ∧
      (c5Date.phrase = "" → c5Eng.warnings = ({} : Engine).warnings)) :=
  ⟨by decide, date_phrase_iff_warning {} c5Rec c5Eng c5Date (by decide)⟩

/-! ## C7: failed token checks downgrade a Gregorian REGULAR date to a
warned PHRASE -/

/-- The token-level checks of the Gregorian REGULAR decoder: true exactly
when some token fails its expected numeric or month-membership check (the
cases parse_date recovers from with a warning; the more-than-one-slash case
is a fatal error, not a failed check, and is excluded). -/
def regular_check_fails (tokens : List String) : Bool :=
  match tokens with
  | [t0] =>
    let bc := pyContains t0 "B.C." || pyContains t0 "BC"
    let year := if bc then strip_BC t0 else t0
    let sc := pyCountChar '/' year
    if sc = 0 then !pyIsDigit year
    else if sc = 1 then
      !pyIsDigit ((pySplitSlash year).headD "") ||
        !pyIsDigit (((pySplitSlash year).drop 1).headD "")
    else false
  | [t0, t1] =>
    if t1 == "B.C." || t1 == "BC" then !pyIsDigit t0
    else !(monthValues.contains (pyStripDot (pyUpper t0))) || !pyIsDigit t1
  | [t0, t1, t2] =>
    !pyIsDigit t0 || !pyIsDigit t2 || !(monthValues.contains (pyStripDot (pyUpper t1)))
  | _ => false

theorem parse_date_one_token_warn (e : Engine) (record : Rec) (dlv t0 : String)
    (d : DateE) (hf : regular_check_fails [t0] = true) :
    ∃ w, parse_date_one_token e record { dateType := "phrase" } dlv t0 d =
      (addWarning w e, .ok { dateType := "phrase", phrase := dlv }) := by
  unfold regular_check_fails at hf
  unfold parse_date_one_token
  dsimp only at hf ⊢
  split_ifs at hf ⊢ <;> first | exact ⟨_, rfl⟩ | simp_all

theorem parse_date_two_tokens_warn (e : Engine) (record : Rec) (dlv t0 t1 : String)
    (d : DateE) (hf : regular_check_fails [t0, t1] = true) :
    ∃ w, parse_date_two_tokens e record { dateType := "phrase" } dlv t0 t1 d =
      (addWarning w e, .ok { dateType := "phrase", phrase := dlv }) := by
  unfold regular_check_fails at hf
  unfold parse_date_two_tokens
  dsimp only at hf ⊢
  split_ifs at hf ⊢ <;> first | exact ⟨_, rfl⟩ | simp_all

theorem parse_date_three_tokens_warn (e : Engine) (record : Rec) (dlv t0 t1 t2 : String)
    (d : DateE) (hf : regular_check_fails [t0, t1, t2] = true) :
    ∃ w, parse_date_three_tokens e record { dateType := "phrase" } dlv t0 t1 t2 d =
      (addWarning w e, .ok { dateType := "phrase", phrase := dlv }) := by
  unfold regular_check_fails at hf
  unfold parse_date_three_tokens
  dsimp only at hf ⊢
  split_ifs at hf ⊢ <;> first | exact ⟨_, rfl⟩ | simp_all

/-- C7: for every Gregorian REGULAR date one of whose tokens fails its
expected numeric or month-membership check, parse_date does not record a
fatal error: it appends exactly one warning and returns a Date of kind
PHRASE whose phrase preserves the (calendar-stripped) date text, so the
pipeline continues. -/
theorem gregorian_token_failure_downgrades (e : Engine) (r : Rec) (dlv : String)
    (dcal : DateE)
    (hstrip : strip_and_set_calendar_type e r {} = (e, some (dlv, dcal)))
    (hgreg : dcal.calendar = "@#DGREGORIAN@")
    (hdlv : dlv ≠ "")
    (hdet : determine_date_type e r (pySplit dlv) = (e, some "regular"))
    (hfail : regular_check_fails (pySplit dlv) = true) :
    ∃ w, parse_date e r = (addWarning w e, .ok { dateType := "phrase", phrase := dlv }) ∧
      (addWarning w e).error = e.error ∧
      (addWarning w e).warnings = e.warnings ++ [w] := by
  have hlen : ¬(pySplit dlv).length = 0 := by
    intro h0
    rw [List.length_eq_zero.mp h0] at hdet
    exact absurd (congrArg Prod.snd hdet) (by simp [determine_date_type])
  unfold parse_date
  dsimp only
  rw [hstrip]
  dsimp only
  rw [if_neg hdlv, if_neg hlen, hdet]
  dsimp only
  rw [hgreg]
  have hcal : (!calendarTypeValues.contains "@#DGREGORIAN@") = false := by decide
  rw [hcal]
  simp only [Bool.false_eq_true, if_false, if_true]
  match htk : pySplit dlv with
  | [] => rw [htk] at hfail; exact absurd hfail (by simp [regular_check_fails])
  | [t0] =>
    rw [htk] at hfail
    obtain ⟨w, hw⟩ := parse_date_one_token_warn e r dlv t0
      { dcal with calendar := "@#DGREGORIAN@", dateType := "regular" } hfail
    exact ⟨w, hw, rfl, rfl⟩
  | [t0, t1] =>
    rw [htk] at hfail
    obtain ⟨w, hw⟩ := parse_date_two_tokens_warn e r dlv t0 t1
      { dcal with calendar := "@#DGREGORIAN@", dateType := "regular" } hfail
    exact ⟨w, hw, rfl, rfl⟩
  | [t0, t1, t2] =>
    rw [htk] at hfail
    obtain ⟨w, hw⟩ := parse_date_three_tokens_warn e r dlv t0 t1 t2
      { dcal with calendar := "@#DGREGORIAN@", dateType := "regular" } hfail
    exact ⟨w, hw, rfl, rfl⟩
  | t0 :: t1 :: t2 :: t3 :: rest =>
    rw [htk] at hfail
    exact absurd hfail (by simp [regular_check_fails])

/-- The DATE record of the C7 witness. -/
def c7Rec : Rec := { level := 1, tag := "DATE", lineValue := "45 BOGUS 1990" }

/-- Witness for C7 at the concrete input `45 BOGUS 1990`: the hypotheses
hold and parse_date downgrades to a warned PHRASE. -/
theorem gregorian_token_failure_downgrades_witness :
    strip_and_set_calendar_type {} c7Rec {} =
      ({}, some ("45 BOGUS 1990", ({} : DateE))) ∧
    ({} : DateE).calendar = "@#DGREGORIAN@" ∧
    ("45 BOGUS 1990" : String) ≠ "" ∧
    determine_date_type {} c7Rec (pySplit "45 BOGUS 1990") = ({}, some "regular") ∧
    regular_check_fails (pySplit "45 BOGUS 1990") = true ∧
    (∃ w, parse_date {} c7Rec =
        (addWarning w {}, .ok { dateType := "phrase", phrase := "45 BOGUS 1990" }) ∧
      (addWarning w {}).error = ({} : Engine).error ∧
      (addWarning w {}).warnings = ({} : Engine).warnings ++ [w]) :=
  ⟨by decide, by decide, by decide, by decide, by decide,
    gregorian_token_failure_downgrades {} c7Rec "45 BOGUS 1990" {}
      (by decide) (by decide) (by decide) (by decide) (by decide)⟩

/-! ## C9: the two fatal pointer-resolution kinds of parse_fam_records -/

theorem string_append_right_ne (s : String) {a b : String} (h : a ≠ b) :
    s ++ a ≠ s ++ b := by
  intro he
  apply h
  apply String.ext
  have hd := congrArg String.data he
  simp only [String.data_append] at hd
  exact List.append_cancel_left hd

/-- C9: when parse_fam_records processes a HUSB, WIFE or CHIL child record,
a pointer absent from the cross-reference table and a pointer that resolves
to a record on which no Individual was built are two distinguished fatal
conditions (different error messages); in both cases the error is recorded
and parse_fam_records returns None, producing no families. -/
theorem fam_pointer_resolution_fatal_kinds (e : Engine) (forest : List Record)
    (i : Nat) (fr : Record) (child : Record)
    (hbucket : e.famRecords = [i]) (hnode : nodeAt forest i = some fr)
    (hch : fr.children = [child])
    (htag : child.data.tag = "HUSB" ∨ child.data.tag = "WIFE" ∨
      child.data.tag = "CHIL") :
    (lookupRef e child.data.crossRefPtr = Option.none →
      parse_fam_records e forest =
        (setError ("The record " ++ recStr child.data ++
          " references a record which does not exist") e, .none)) ∧
    (∀ j, lookupRef e child.data.crossRefPtr = some j →
      lookupIndi e j = Option.none →
      parse_fam_records e forest =
        (setError ("The record " ++ recStr child.data ++
          " references an individual which does not exist") e, .none)) ∧
    ("The record " ++ recStr child.data ++
        " references a record which does not exist") ≠
      ("The record " ++ recStr child.data ++
        " references an individual which does not exist") := by
  refine ⟨?_, ?_, ?_⟩
  · intro hlk
    rcases htag with h | h | h <;>
      simp [parse_fam_records, hbucket, parse_fam_records_go, hnode, hch,
        parse_fam_children, parse_fam_child, h, hlk]
  · intro j hlk hind
    rcases htag with h | h | h <;>
      simp [parse_fam_records, hbucket, parse_fam_records_go, hnode, hch,
        parse_fam_children, parse_fam_child, h, hlk, hind]
  · have : ("The record " ++ recStr child.data) ++
        " references a record which does not exist" ≠
        ("The record " ++ recStr child.data) ++
        " references an individual which does not exist" :=
      string_append_right_ne _ (by decide)
    simpa [String.append_assoc] using this

/-- The HUSB child of the C9 witness family. -/
def c9Child : Record := Record.node { level := 1, tag := "HUSB", crossRefPtr := "@I9@" } []

/-- The FAM record of the C9 witness. -/
def c9Fam : Record :=
  Record.node { level := 0, tag := "FAM", crossRefId := "@F1@" } [c9Child]

/-- C9 witness engine A: the pointer `@I9@` is absent from the table. -/
def c9EngA : Engine := { famRecords := [1] }

/-- C9 witness engine B: the pointer resolves to line 7, but no Individual
was built on that record. -/
def c9EngB : Engine := { famRecords := [1], refs := [("@I9@", 7)] }

/-- Witness for C9: both fatal kinds fire at concrete inputs. -/
theorem fam_pointer_resolution_fatal_kinds_witness :
    c9EngA.famRecords = [1] ∧ nodeAt [c9Fam] 1 = some c9Fam ∧
    c9Fam.children = [c9Child] ∧ c9Child.data.tag = "HUSB" ∧
    lookupRef c9EngA "@I9@" = Option.none ∧
    lookupRef c9EngB "@I9@" = some 7 ∧ lookupIndi c9EngB 7 = Option.none ∧
    parse_fam_records c9EngA [c9Fam] =
      (setError ("The record " ++ recStr c9Child.data ++
        " references a record which does not exist") c9EngA, .none) ∧
    parse_fam_records c9EngB [c9Fam] =
      (setError ("The record " ++ recStr c9Child.data ++
        " references an individual which does not exist") c9EngB, .none) :=
  ⟨rfl, rfl, rfl, rfl, rfl, rfl, rfl,
    (fam_pointer_resolution_fatal_kinds c9EngA [c9Fam] 1 c9Fam c9Child rfl rfl rfl
      (Or.inl rfl)).1 rfl,
    (fam_pointer_resolution_fatal_kinds c9EngB [c9Fam] 1 c9Fam c9Child rfl rfl rfl
      (Or.inl rfl)).2.1 7 rfl rfl⟩

/-! ## C10: the joining discipline of the line-value loop -/

/-- A token the line-value loop consumes as a cross-reference pointer. -/
def pointer_token (t : String) : Bool := is_cross_ref_id t && is_valid_cross_ref_id t

/-- The remaining tokens the loop appends to line_value. -/
def value_tokens (ts : List String) : List String :=
  ts.filter (fun t => !pointer_token t)

/-- Whether the line's final token is consumed as a pointer. -/
def last_is_pointer (ts : List String) : Bool :=
  match ts.getLast? with
  | some t => pointer_token t
  | Option.none => false

/-- Tokens rejoined with single separating spaces. -/
def join_space : List String → String
  | [] => ""
  | [t] => t
  | t :: u :: rest => t ++ " " ++ join_space (u :: rest)

/-- What the loop appends for the remaining tokens: each non-pointer token,
followed by a space unless it is the line's final token. -/
def tail_join : List String → String
  | [] => ""
  | t :: rest =>
    if pointer_token t then tail_join rest
    else t ++ (if rest.isEmpty then "" else " ") ++ tail_join rest

theorem line_value_loop_acc (ts : List String) :
    ∀ (e : Engine) (n : Nat) (r : Rec) (e' : Engine) (r' : Rec),
    line_value_loop e n r ts = (e', .ok r') →
    r'.lineValue = r.lineValue ++ tail_join ts := by
  induction ts with
  | nil =>
    intro e n r e' r' h
    simp only [line_value_loop, Prod.mk.injEq, PyResult.ok.injEq] at h
    obtain ⟨rfl, rfl⟩ := h
    simp [tail_join]
  | cons t rest ih =>
    intro e n r e' r' h
    unfold line_value_loop at h
    by_cases hp : (is_cross_ref_id t && is_valid_cross_ref_id t) = true
    · rw [if_pos hp] at h
      by_cases hid : r.crossRefId ≠ ""
      · rw [if_pos hid] at h
        exact absurd (congrArg Prod.snd h) (by simp)
      · rw [if_neg hid] at h
        have hacc := ih _ n _ _ _ h
        simp only at hacc
        rw [hacc]
        simp only [tail_join]
        rw [if_pos (show pointer_token t = true from hp)]
    · rw [if_neg hp, if_pos (show is_valid_line_value_token t = true from rfl)] at h
      have hacc := ih _ n _ _ _ h
      simp only at hacc
      rw [hacc]
      simp only [tail_join]
      rw [if_neg (show ¬pointer_token t = true from hp)]
      simp only [String.append_assoc]

theorem value_tokens_nil_last (ts : List String) :
    ts ≠ [] → value_tokens ts = [] → last_is_pointer ts = true := by
  induction ts with
  | nil => intro h; exact absurd rfl h
  | cons t rest ih =>
    intro _ hv
    by_cases hp : pointer_token t = true
    · match rest with
      | [] => simpa [last_is_pointer] using hp
      | u :: rest' =>
        have hv' : value_tokens (u :: rest') = [] := by
          simpa [value_tokens, List.filter_cons, hp] using hv
        have := ih (by simp) hv'
        simpa [last_is_pointer, List.getLast?_cons_cons] using this
    · exact absurd hv (by simp [value_tokens, List.filter_cons, hp])

theorem join_space_cons (t : String) (l : List String) (h : l ≠ []) :
    join_space (t :: l) = t ++ " " ++ join_space l := by
  match l with
  | [] => exact absurd rfl h
  | u :: l' => rfl

theorem tail_join_eq (ts : List String) :
    tail_join ts = join_space (value_tokens ts) ++
      (if last_is_pointer ts && !(value_tokens ts).isEmpty then " " else "") := by
  induction ts with
  | nil => simp [tail_join, value_tokens, last_is_pointer, join_space]
  | cons t rest ih =>
    by_cases hp : pointer_token t = true
    · have hvt : value_tokens (t :: rest) = value_tokens rest := by
        simp [value_tokens, List.filter_cons, hp]
      match rest with
      | [] =>
        simp [tail_join, hp, hvt, value_tokens, last_is_pointer, join_space]
      | u :: rest' =>
        have hlast : last_is_pointer (t :: u :: rest') = last_is_pointer (u :: rest') := by
          simp [last_is_pointer, List.getLast?_cons_cons]
        simp only [tail_join, hp, if_true, if_pos, hvt, hlast]
        exact ih
    · have hvt : value_tokens (t :: rest) = t :: value_tokens rest := by
        simp [value_tokens, List.filter_cons, hp]
      match rest with
      | [] =>
        simp [tail_join, hp, hvt, value_tokens, last_is_pointer, join_space, hp]
      | u :: rest' =>
        have hlast : last_is_pointer (t :: u :: rest') = last_is_pointer (u :: rest') := by
          simp [last_is_pointer, List.getLast?_cons_cons]
        have hlE : (u :: rest').isEmpty = false := rfl
        have hlne : u :: rest' ≠ [] := by simp
        generalize hgen : u :: rest' = l at ih hvt hlast hlE hlne ⊢
        by_cases hv : value_tokens l = []
        · have hlp : last_is_pointer l = true := value_tokens_nil_last l hlne hv
          simp only [tail_join, hp, Bool.false_eq_true, if_false, hvt, hlast, hlE]
          rw [ih, hv, hlp]
          simp [join_space, String.append_assoc]
        · have hne : (value_tokens l).isEmpty = false := by
            simpa [List.isEmpty_iff] using hv
          simp only [tail_join, hp, Bool.false_eq_true, if_false, hvt, hlast, hlE]
          rw [ih, join_space_cons t _ hv]
          simp [hne, String.append_assoc, Bool.and_true]

/-- C10 (amended): for every tokenized line parsed successfully, each
remaining non-pointer token after the tag is appended to line_value
separated by single spaces; a separating space follows every appended token
that is not the line's *final* token, so line_value carries a trailing
space exactly when the final token is instead consumed as a cross-reference
pointer (and at least one value token was appended).  (The claim's "no
trailing space after the last appended token — including when the line's
final token is a pointer" is refuted by the counterexample.) -/
theorem line_value_join (e : Engine) (n : Nat) (r : Rec) (ts : List String)
    (e' : Engine) (r' : Rec) (h0 : r.lineValue = "")
    (h : line_value_loop e n r ts = (e', .ok r')) :
    r'.lineValue = join_space (value_tokens ts) ++
      (if last_is_pointer ts && !(value_tokens ts).isEmpty then " " else "") := by
  rw [line_value_loop_acc ts e n r e' r' h, h0, tail_join_eq]
  simp

/-- Witness for C10 at the remaining tokens `John @P1@`: the loop yields
line_value `"John "`, which the amended statement predicts (final token is
a pointer, so the separating space remains). -/
theorem line_value_join_witness :
    ({ level := 0, tag := "NOTE" } : Rec).lineValue = "" ∧
    line_value_loop {} 1 { level := 0, tag := "NOTE" } ["John", "@P1@"] =
      ({}, .ok { level := 0, tag := "NOTE", lineValue := "John ",
                 crossRefPtr := "@P1@" }) ∧
    ({ level := 0, tag := "NOTE", lineValue := "John ",
       crossRefPtr := "@P1@" } : Rec).lineValue =
      join_space (value_tokens ["John", "@P1@"]) ++
        (if last_is_pointer ["John", "@P1@"] &&
            !(value_tokens ["John", "@P1@"]).isEmpty then " " else "") :=
  ⟨rfl, by decide,
    line_value_join {} 1 { level := 0, tag := "NOTE" } ["John", "@P1@"] {}
      { level := 0, tag := "NOTE", lineValue := "John ", crossRefPtr := "@P1@" }
      rfl (by decide)⟩

/-! ## C6: the first-writer-wins discipline of the fatal-error slot.

`WritesBounded e e' r` says a call that turned engine `e` into `e'`
returning `r` either never assigned the error slot (writes and slot
unchanged) or assigned it exactly once and returned None.  Every parsing
operation satisfies it; combined with the `run` gate this bounds the whole
pipeline to at most one write. -/

/-- The error-write discipline of one engine-threading call. -/
def WritesBounded {α : Type} (e e' : Engine) (r : PyResult α) : Prop :=
  (e'.errorWrites = e.errorWrites ∧ e'.error = e.error) ∨
    (r = .none ∧ e'.errorWrites = e.errorWrites + 1 ∧ e'.error.isSome = true)

theorem wb_pure {α : Type} (e : Engine) (r : PyResult α) : WritesBounded e e r :=
  Or.inl ⟨rfl, rfl⟩

theorem wb_setError {α : Type} (e : Engine) (m : String) :
    WritesBounded e (setError m e) (.none : PyResult α) :=
  Or.inr ⟨rfl, rfl, rfl⟩

theorem wb_same {α : Type} (e e' : Engine) (r : PyResult α)
    (hw : e'.errorWrites = e.errorWrites) (he : e'.error = e.error) :
    WritesBounded e e' r :=
  Or.inl ⟨hw, he⟩

/-- An `.ok` step never wrote the error slot. -/
theorem wb_ok_elim {α : Type} (e e' : Engine) (a : α)
    (h : WritesBounded e e' (.ok a)) :
    e'.errorWrites = e.errorWrites ∧ e'.error = e.error := by
  rcases h with h | ⟨hc, _⟩
  · exact h
  · exact absurd hc (by simp)

/-- A `.crash` step never wrote the error slot. -/
theorem wb_crash_elim {α : Type} (e e' : Engine)
    (h : WritesBounded e e' (.crash : PyResult α)) :
    e'.errorWrites = e.errorWrites ∧ e'.error = e.error := by
  rcases h with h | ⟨hc, _⟩
  · exact h
  · exact absurd hc (by simp)

/-- Retyping a propagated `.none` or `.crash` result. -/
theorem wb_retype {α β : Type} (e e' : Engine) (r : PyResult α) (r' : PyResult β)
    (h : WritesBounded e e' r) (hr : r = .none → r' = .none) :
    WritesBounded e e' r' := by
  rcases h with h | ⟨hc, h1, h2⟩
  · exact Or.inl h
  · exact Or.inr ⟨hr hc, h1, h2⟩

/-- Chaining: a step that returned `.ok` followed by a bounded rest. -/
theorem wb_chain {α β : Type} (e e1 e' : Engine) (a : α) (r : PyResult β)
    (h1 : WritesBounded e e1 (.ok a)) (h2 : WritesBounded e1 e' r) :
    WritesBounded e e' r := by
  obtain ⟨hw, he⟩ := wb_ok_elim e e1 a h1
  rcases h2 with ⟨hw2, he2⟩ | ⟨hc, hw2, he2⟩
  · exact Or.inl ⟨hw2.trans hw, he2.trans he⟩
  · exact Or.inr ⟨hc, by omega, he2⟩

theorem line_value_loop_wb (ts : List String) :
    ∀ (e : Engine) (n : Nat) (r : Rec) (e' : Engine) (res : PyResult Rec),
    line_value_loop e n r ts = (e', res) → WritesBounded e e' res := by
  induction ts with
  | nil =>
    intro e n r e' res h
    simp only [line_value_loop, Prod.mk.injEq] at h
    obtain ⟨rfl, rfl⟩ := h
    exact wb_pure e _
  | cons t rest ih =>
    intro e n r e' res h
    unfold line_value_loop at h
    split_ifs at h with h1 h2 h3 h4 <;>
      first
        | (obtain ⟨rfl, rfl⟩ := Prod.mk.injEq .. ▸ h
           exact wb_setError e _)
        | exact ih e n _ e' res h

theorem parse_raw_line_tag_wb (e : Engine) (n : Nat) (r : Rec) (tagTok : String)
    (ts : List String) (e' : Engine) (res : PyResult Rec)
    (h : parse_raw_line_tag e n r tagTok ts = (e', res)) : WritesBounded e e' res := by
  unfold parse_raw_line_tag at h
  split_ifs at h with h1 h2 h3 h4 <;>
    first
      | (obtain ⟨rfl, rfl⟩ := Prod.mk.injEq .. ▸ h
         exact wb_setError e _)
      | (refine wb_chain e _ e' () res ?_ (line_value_loop_wb ts _ n _ e' res h)
         exact wb_same _ _ _ rfl rfl)

theorem parse_raw_line_wb (e : Engine) (line : String) (n : Nat)
    (e' : Engine) (res : PyResult Rec)
    (h : parse_raw_line e line n = (e', res)) : WritesBounded e e' res := by
  unfold parse_raw_line at h
  dsimp only at h
  split at h
  · obtain ⟨rfl, rfl⟩ := Prod.mk.injEq .. ▸ h
    exact wb_pure e _
  next t0 _ =>
    split_ifs at h with h1
    · split at h
      · obtain ⟨rfl, rfl⟩ := Prod.mk.injEq .. ▸ h
        exact wb_pure e _
      next t1 _ =>
        split_ifs at h with h2 h3 h4
        · obtain ⟨rfl, rfl⟩ := Prod.mk.injEq .. ▸ h
          exact wb_setError e _
        · split at h
          · obtain ⟨rfl, rfl⟩ := Prod.mk.injEq .. ▸ h
            exact wb_same _ _ _ rfl rfl
          next t2 _ =>
            refine wb_chain e _ e' () res ?_
              (parse_raw_line_tag_wb _ n _ t2 _ e' res h)
            exact wb_same _ _ _ rfl rfl
        · obtain ⟨rfl, rfl⟩ := Prod.mk.injEq .. ▸ h
          exact wb_setError e _
        · exact parse_raw_line_tag_wb e n _ t1 _ e' res h
    · obtain ⟨rfl, rfl⟩ := Prod.mk.injEq .. ▸ h
      exact wb_setError e _

theorem parse_raw_lines_go_wb (ls : List String) :
    ∀ (e : Engine) (i : Nat) (stack : List Frame) (out : List Record)
      (e' : Engine) (res : PyResult (List Record)),
    parse_raw_lines_go e i stack out ls = (e', res) → WritesBounded e e' res := by
  induction ls with
  | nil =>
    intro e i stack out e' res h
    simp only [parse_raw_lines_go, Prod.mk.injEq] at h
    obtain ⟨rfl, rfl⟩ := h
    exact wb_pure e _
  | cons l ls ih =>
    intro e i stack out e' res h
    unfold parse_raw_lines_go at h
    split at h
    next e1 r heq =>
      exact wb_chain e e1 e' r res (parse_raw_line_wb e l (i + 1) e1 (.ok r) heq)
        (ih e1 (i + 1) _ _ e' res h)
    next e1 heq =>
      obtain ⟨rfl, rfl⟩ := Prod.mk.injEq .. ▸ h
      exact wb_retype _ _ _ _ (parse_raw_line_wb e l (i + 1) e1 .none heq) (fun _ => rfl)
    next e1 heq =>
      obtain ⟨rfl, rfl⟩ := Prod.mk.injEq .. ▸ h
      exact wb_retype _ _ _ _ (parse_raw_line_wb e l (i + 1) e1 .crash heq) (by simp)

theorem parse_raw_lines_wb (e : Engine) (lines : List String)
    (e' : Engine) (res : PyResult (List Record))
    (h : parse_raw_lines e lines = (e', res)) : WritesBounded e e' res :=
  parse_raw_lines_go_wb lines e 0 [] [] e' res h

/-- Prepending an error-silent step. -/
theorem wb_pre {α : Type} (e e1 e' : Engine) (r : PyResult α)
    (h1w : e1.errorWrites = e.errorWrites) (h1e : e1.error = e.error)
    (h : WritesBounded e1 e' r) : WritesBounded e e' r := by
  rcases h with ⟨hw, he⟩ | ⟨hc, hw, he⟩
  · exact Or.inl ⟨hw.trans h1w, he.trans h1e⟩
  · exact Or.inr ⟨hc, by omega, he⟩

theorem strip_and_set_calendar_type_wb (e : Engine) (r : Rec) (d : DateE)
    (e1 : Engine) (o : Option (String × DateE))
    (h : strip_and_set_calendar_type e r d = (e1, o)) :
    (e1.errorWrites = e.errorWrites ∧ e1.error = e.error) ∨
      (o = Option.none ∧ e1.errorWrites = e.errorWrites + 1 ∧ e1.error.isSome = true) := by
  unfold strip_and_set_calendar_type at h
  dsimp only at h
  split_ifs at h <;>
    obtain ⟨rfl, rfl⟩ := Prod.mk.injEq .. ▸ h <;>
    first
      | exact Or.inr ⟨rfl, rfl, rfl⟩
      | exact Or.inl ⟨rfl, rfl⟩

theorem determine_date_type_wb (e : Engine) (r : Rec) (ts : List String)
    (e1 : Engine) (o : Option String)
    (h : determine_date_type e r ts = (e1, o)) :
    (e1.errorWrites = e.errorWrites ∧ e1.error = e.error) ∨
      (o = Option.none ∧ e1.errorWrites = e.errorWrites + 1 ∧ e1.error.isSome = true) := by
  unfold determine_date_type at h
  match ts with
  | [] =>
    obtain ⟨rfl, rfl⟩ := Prod.mk.injEq .. ▸ h
    exact Or.inl ⟨rfl, rfl⟩
  | t0 :: rest =>
    dsimp only at h
    split_ifs at h <;>
      obtain ⟨rfl, rfl⟩ := Prod.mk.injEq .. ▸ h <;>
      first
        | exact Or.inr ⟨rfl, rfl, rfl⟩
        | exact Or.inl ⟨rfl, rfl⟩

theorem parse_date_one_token_wb (e : Engine) (record : Rec) (wd : DateE)
    (dlv t0 : String) (d : DateE) (e' : Engine) (res : PyResult DateE)
    (h : parse_date_one_token e record wd dlv t0 d = (e', res)) :
    WritesBounded e e' res := by
  unfold parse_date_one_token at h
  dsimp only at h
  split_ifs at h <;>
    obtain ⟨rfl, rfl⟩ := Prod.mk.injEq .. ▸ h <;>
    first
      | exact wb_setError e _
      | exact wb_same _ _ _ rfl rfl

theorem parse_date_two_tokens_wb (e : Engine) (record : Rec) (wd : DateE)
    (dlv t0 t1 : String) (d : DateE) (e' : Engine) (res : PyResult DateE)
    (h : parse_date_two_tokens e record wd dlv t0 t1 d = (e', res)) :
    WritesBounded e e' res := by
  unfold parse_date_two_tokens at h
  dsimp only at h
  split_ifs at h <;>
    obtain ⟨rfl, rfl⟩ := Prod.mk.injEq .. ▸ h <;>
    first
      | exact wb_setError e _
      | exact wb_same _ _ _ rfl rfl

theorem parse_date_three_tokens_wb (e : Engine) (record : Rec) (wd : DateE)
    (dlv t0 t1 t2 : String) (d : DateE) (e' : Engine) (res : PyResult DateE)
    (h : parse_date_three_tokens e record wd dlv t0 t1 t2 d = (e', res)) :
    WritesBounded e e' res := by
  unfold parse_date_three_tokens at h
  dsimp only at h
  split_ifs at h <;>
    obtain ⟨rfl, rfl⟩ := Prod.mk.injEq .. ▸ h <;>
    first
      | exact wb_setError e _
      | exact wb_same _ _ _ rfl rfl

theorem parse_date_wb (e : Engine) (r : Rec) (e' : Engine) (res : PyResult DateE)
    (h : parse_date e r = (e', res)) : WritesBounded e e' res := by
  unfold parse_date at h
  dsimp only at h
  split at h
  next e1 hstrip =>
    obtain ⟨rfl, rfl⟩ := Prod.mk.injEq .. ▸ h
    rcases strip_and_set_calendar_type_wb e r _ _ _ hstrip with ⟨h1, h2⟩ | ⟨-, h1, h2⟩
    · exact wb_same _ _ _ h1 h2
    · exact Or.inr ⟨rfl, h1, h2⟩
  next e1 dlv d1 hstrip =>
    rcases strip_and_set_calendar_type_wb e r _ _ _ hstrip with ⟨hw1, he1⟩ | ⟨hc, -, -⟩
    swap
    · exact absurd hc (by simp)
    by_cases hdlv : dlv = ""
    · rw [if_pos hdlv] at h
      obtain ⟨rfl, rfl⟩ := Prod.mk.injEq .. ▸ h
      exact wb_same _ _ _ hw1 he1
    · rw [if_neg hdlv] at h
      by_cases hlen : (pySplit dlv).length = 0
      · rw [if_pos hlen] at h
        obtain ⟨rfl, rfl⟩ := Prod.mk.injEq .. ▸ h
        exact Or.inr ⟨rfl, by simp [setError, hw1], by simp [setError]⟩
      · rw [if_neg hlen] at h
        split at h
        next e2 hdet =>
          rcases determine_date_type_wb e1 r _ _ _ hdet with ⟨hw2, he2⟩ | ⟨-, hw2, he2⟩
          · by_cases hs : e2.error.isSome = true
            · rw [if_pos hs] at h
              obtain ⟨rfl, rfl⟩ := Prod.mk.injEq .. ▸ h
              exact wb_same _ _ _ (hw2.trans hw1) (he2.trans he1)
            · rw [if_neg hs] at h
              obtain ⟨rfl, rfl⟩ := Prod.mk.injEq .. ▸ h
              refine Or.inr ⟨rfl, ?_, by simp [setError]⟩
              simp only [setError]
              omega
          · rw [if_pos he2] at h
            obtain ⟨rfl, rfl⟩ := Prod.mk.injEq .. ▸ h
            exact Or.inr ⟨rfl, by omega, he2⟩
        next e2 dtype hdet =>
          rcases determine_date_type_wb e1 r _ _ _ hdet with ⟨hw2, he2⟩ | ⟨hc, -, -⟩
          swap
          · exact absurd hc (by simp)
          have hw12 : e2.errorWrites = e.errorWrites := hw2.trans hw1
          have he12 : e2.error = e.error := he2.trans he1
          by_cases hcal : (!calendarTypeValues.contains d1.calendar) = true
          · rw [if_pos hcal] at h
            obtain ⟨rfl, rfl⟩ := Prod.mk.injEq .. ▸ h
            exact wb_same _ _ _ hw12 he12
          · rw [if_neg hcal] at h
            by_cases hgreg : d1.calendar = "@#DGREGORIAN@"
            · rw [if_pos hgreg] at h
              by_cases hreg : dtype = "regular"
              · rw [if_pos hreg] at h
                split at h
                next t0 _ =>
                  exact wb_pre e e2 e' res hw12 he12
                    (parse_date_one_token_wb e2 r _ dlv t0 _ e' res h)
                next t0 t1 _ =>
                  exact wb_pre e e2 e' res hw12 he12
                    (parse_date_two_tokens_wb e2 r _ dlv t0 t1 _ e' res h)
                next t0 t1 t2 _ =>
                  exact wb_pre e e2 e' res hw12 he12
                    (parse_date_three_tokens_wb e2 r _ dlv t0 t1 t2 _ e' res h)
                next =>
                  obtain ⟨rfl, rfl⟩ := Prod.mk.injEq .. ▸ h
                  exact wb_same _ _ _ hw12 he12
              · rw [if_neg hreg] at h
                obtain ⟨rfl, rfl⟩ := Prod.mk.injEq .. ▸ h
                exact wb_same _ _ _ hw12 he12
            · rw [if_neg hgreg] at h
              obtain ⟨rfl, rfl⟩ := Prod.mk.injEq .. ▸ h
              exact wb_same _ _ _ hw12 he12

theorem parse_addr_child_loop_wb (cs : List Record) :
    ∀ (e : Engine) (a : Address) (fl : Bool) (e' : Engine) (res : PyResult Address),
    parse_addr_child_loop e a fl cs = (e', res) → WritesBounded e e' res := by
  induction cs with
  | nil =>
    intro e a fl e' res h
    obtain ⟨rfl, rfl⟩ := Prod.mk.injEq .. ▸ h
    exact wb_pure e _
  | cons c rest ih =>
    intro e a fl e' res h
    unfold parse_addr_child_loop at h
    dsimp only at h
    split_ifs at h <;>
      first
        | (obtain ⟨rfl, rfl⟩ := Prod.mk.injEq .. ▸ h
           exact wb_setError e _)
        | exact ih e _ _ e' res h

theorem parse_address_loop_wb (cs : List Record) :
    ∀ (e : Engine) (a : Address) (e' : Engine) (res : PyResult Address),
    parse_address_loop e a cs = (e', res) → WritesBounded e e' res := by
  induction cs with
  | nil =>
    intro e a e' res h
    obtain ⟨rfl, rfl⟩ := Prod.mk.injEq .. ▸ h
    exact wb_pure e _
  | cons c rest ih =>
    intro e a e' res h
    unfold parse_address_loop at h
    dsimp only at h
    split_ifs at h <;>
      first
        | (obtain ⟨rfl, rfl⟩ := Prod.mk.injEq .. ▸ h
           exact wb_setError e _)
        | exact ih e _ e' res h
        | (split at h
           next e1 a1 heq =>
             exact wb_chain e e1 e' a1 res (parse_addr_child_loop_wb _ e _ _ e1 _ heq)
               (ih e1 _ e' res h)
           next e1 heq =>
             obtain ⟨rfl, rfl⟩ := Prod.mk.injEq .. ▸ h
             exact wb_retype _ _ _ _ (parse_addr_child_loop_wb _ e _ _ e1 _ heq)
               (fun _ => rfl)
           next e1 heq =>
             obtain ⟨rfl, rfl⟩ := Prod.mk.injEq .. ▸ h
             exact wb_retype _ _ _ _ (parse_addr_child_loop_wb _ e _ _ e1 _ heq)
               (by simp))

theorem parse_address_wb (e : Engine) (record : Record) (e' : Engine)
    (res : PyResult Address) (h : parse_address e record = (e', res)) :
    WritesBounded e e' res :=
  parse_address_loop_wb record.children e {} e' res h

theorem parse_header_data_loop_wb (cs : List Record) :
    ∀ (e : Engine) (hd : Header) (e' : Engine) (res : PyResult Header),
    parse_header_data_loop e hd cs = (e', res) → WritesBounded e e' res := by
  induction cs with
  | nil =>
    intro e hd e' res h
    obtain ⟨rfl, rfl⟩ := Prod.mk.injEq .. ▸ h
    exact wb_pure e _
  | cons c rest ih =>
    intro e hd e' res h
    unfold parse_header_data_loop at h
    dsimp only at h
    split_ifs at h <;>
      first
        | (obtain ⟨rfl, rfl⟩ := Prod.mk.injEq .. ▸ h
           first
             | exact wb_setError e _
             | exact wb_pure e _)
        | exact ih e _ e' res h

theorem parse_header_sour_loop_wb (cs : List Record) :
    ∀ (e : Engine) (hd : Header) (e' : Engine) (res : PyResult Header),
    parse_header_sour_loop e hd cs = (e', res) → WritesBounded e e' res := by
  induction cs with
  | nil =>
    intro e hd e' res h
    obtain ⟨rfl, rfl⟩ := Prod.mk.injEq .. ▸ h
    exact wb_pure e _
  | cons c rest ih =>
    intro e hd e' res h
    unfold parse_header_sour_loop at h
    dsimp only at h
    split_ifs at h <;>
      first
        | (obtain ⟨rfl, rfl⟩ := Prod.mk.injEq .. ▸ h
           exact wb_setError e _)
        | exact ih e _ e' res h
        | (split at h
           next e1 a1 heq =>
             exact wb_chain e e1 e' a1 res (parse_address_wb e _ e1 _ heq)
               (ih e1 _ e' res h)
           next e1 heq =>
             obtain ⟨rfl, rfl⟩ := Prod.mk.injEq .. ▸ h
             exact wb_retype _ _ _ _ (parse_address_wb e _ e1 _ heq) (fun _ => rfl)
           next e1 heq =>
             obtain ⟨rfl, rfl⟩ := Prod.mk.injEq .. ▸ h
             exact wb_retype _ _ _ _ (parse_address_wb e _ e1 _ heq) (by simp))
        | (split at h
           next e1 h1 heq =>
             exact wb_chain e e1 e' h1 res (parse_header_data_loop_wb _ e _ e1 _ heq)
               (ih e1 _ e' res h)
           next e1 heq =>
             obtain ⟨rfl, rfl⟩ := Prod.mk.injEq .. ▸ h
             exact wb_retype _ _ _ _ (parse_header_data_loop_wb _ e _ e1 _ heq)
               (fun _ => rfl)
           next e1 heq =>
             obtain ⟨rfl, rfl⟩ := Prod.mk.injEq .. ▸ h
             exact wb_retype _ _ _ _ (parse_header_data_loop_wb _ e _ e1 _ heq)
               (by simp))

theorem parse_header_gedc_loop_wb (cs : List Record) :
    ∀ (e : Engine) (hd : Header) (e' : Engine) (res : PyResult Header),
    parse_header_gedc_loop e hd cs = (e', res) → WritesBounded e e' res := by
  induction cs with
  | nil =>
    intro e hd e' res h
    obtain ⟨rfl, rfl⟩ := Prod.mk.injEq .. ▸ h
    exact wb_pure e _
  | cons c rest ih =>
    intro e hd e' res h
    unfold parse_header_gedc_loop at h
    dsimp only at h
    split_ifs at h <;>
      first
        | (obtain ⟨rfl, rfl⟩ := Prod.mk.injEq .. ▸ h
           exact wb_setError e _)
        | exact ih e _ e' res h

theorem parse_header_char_loop_wb (cs : List Record) :
    ∀ (e : Engine) (hd : Header) (e' : Engine) (res : PyResult Header),
    parse_header_char_loop e hd cs = (e', res) → WritesBounded e e' res := by
  induction cs with
  | nil =>
    intro e hd e' res h
    obtain ⟨rfl, rfl⟩ := Prod.mk.injEq .. ▸ h
    exact wb_pure e _
  | cons c rest ih =>
    intro e hd e' res h
    unfold parse_header_char_loop at h
    dsimp only at h
    split_ifs at h <;>
      first
        | (obtain ⟨rfl, rfl⟩ := Prod.mk.injEq .. ▸ h
           exact wb_setError e _)
        | exact ih e _ e' res h

theorem parse_header_loop_wb (cs : List Record) :
    ∀ (e : Engine) (hd : Header) (e' : Engine) (res : PyResult Header),
    parse_header_loop e hd cs = (e', res) → WritesBounded e e' res := by
  induction cs with
  | nil =>
    intro e hd e' res h
    obtain ⟨rfl, rfl⟩ := Prod.mk.injEq .. ▸ h
    exact wb_pure e _
  | cons c rest ih =>
    intro e hd e' res h
    unfold parse_header_loop at h
    dsimp only at h
    by_cases h1 : c.data.tag = "SOUR"
    · rw [if_pos h1] at h
      split at h
      next e1 hh heq =>
        exact wb_chain e e1 e' hh res (parse_header_sour_loop_wb _ e _ e1 _ heq)
          (ih e1 _ e' res h)
      next e1 heq =>
        obtain ⟨rfl, rfl⟩ := Prod.mk.injEq .. ▸ h
        exact wb_retype _ _ _ _ (parse_header_sour_loop_wb _ e _ e1 _ heq)
          (fun _ => rfl)
      next e1 heq =>
        obtain ⟨rfl, rfl⟩ := Prod.mk.injEq .. ▸ h
        exact wb_retype _ _ _ _ (parse_header_sour_loop_wb _ e _ e1 _ heq) (by simp)
    · rw [if_neg h1] at h
      by_cases h2 : c.data.tag = "DATE"
      · rw [if_pos h2] at h
        obtain ⟨rfl, rfl⟩ := Prod.mk.injEq .. ▸ h
        exact wb_pure e _
      · rw [if_neg h2] at h
        by_cases h3 : (c.data.tag = "SUBM" || c.data.tag = "SUBN" : Bool) = true
        · rw [if_pos h3] at h
          split_ifs at h <;> exact ih e _ e' res h
        · rw [if_neg h3] at h
          by_cases h4 : c.data.tag = "GEDC"
          · rw [if_pos h4] at h
            split at h
            next e1 hh heq =>
              exact wb_chain e e1 e' hh res (parse_header_gedc_loop_wb _ e _ e1 _ heq)
                (ih e1 _ e' res h)
            next e1 heq =>
              obtain ⟨rfl, rfl⟩ := Prod.mk.injEq .. ▸ h
              exact wb_retype _ _ _ _ (parse_header_gedc_loop_wb _ e _ e1 _ heq)
                (fun _ => rfl)
            next e1 heq =>
              obtain ⟨rfl, rfl⟩ := Prod.mk.injEq .. ▸ h
              exact wb_retype _ _ _ _ (parse_header_gedc_loop_wb _ e _ e1 _ heq)
                (by simp)
          · rw [if_neg h4] at h
            by_cases h5 : c.data.tag = "CHAR"
            · rw [if_pos h5] at h
              split at h
              next e1 hh heq =>
                exact wb_chain e e1 e' hh res
                  (parse_header_char_loop_wb _ e _ e1 _ heq) (ih e1 _ e' res h)
              next e1 heq =>
                obtain ⟨rfl, rfl⟩ := Prod.mk.injEq .. ▸ h
                exact wb_retype _ _ _ _ (parse_header_char_loop_wb _ e _ e1 _ heq)
                  (fun _ => rfl)
              next e1 heq =>
                obtain ⟨rfl, rfl⟩ := Prod.mk.injEq .. ▸ h
                exact wb_retype _ _ _ _ (parse_header_char_loop_wb _ e _ e1 _ heq)
                  (by simp)
            · rw [if_neg h5] at h
              by_cases h6 : c.data.tag = "PLAC"
              · rw [if_pos h6] at h
                split at h
                next f =>
                  split_ifs at h
                  · exact ih e _ e' res h
                  · obtain ⟨rfl, rfl⟩ := Prod.mk.injEq .. ▸ h
                    exact wb_setError e _
                next =>
                  obtain ⟨rfl, rfl⟩ := Prod.mk.injEq .. ▸ h
                  exact wb_setError e _
              · rw [if_neg h6] at h
                split_ifs at h <;>
                  first
                    | exact ih e _ e' res h
                    | (obtain ⟨rfl, rfl⟩ := Prod.mk.injEq .. ▸ h
                       exact wb_setError e _)

theorem parse_header_wb (e : Engine) (forest : List Record) (e' : Engine)
    (res : PyResult Header) (h : parse_header e forest = (e', res)) :
    WritesBounded e e' res := by
  unfold parse_header at h
  split at h
  · obtain ⟨rfl, rfl⟩ := Prod.mk.injEq .. ▸ h
    exact wb_setError e _
  next i =>
    split at h
    · obtain ⟨rfl, rfl⟩ := Prod.mk.injEq .. ▸ h
      exact wb_pure e _
    next hd _ =>
      exact parse_header_loop_wb hd.children e {} e' res h

theorem parse_phonetic_loop_wb (cs : List Record) :
    ∀ (e : Engine) (iid : String) (nm : Name) (e' : Engine) (res : PyResult Name),
    parse_phonetic_loop e iid nm cs = (e', res) → WritesBounded e e' res := by
  induction cs with
  | nil =>
    intro e iid nm e' res h
    obtain ⟨rfl, rfl⟩ := Prod.mk.injEq .. ▸ h
    exact wb_pure e _
  | cons c rest ih =>
    intro e iid nm e' res h
    unfold parse_phonetic_loop at h
    dsimp only at h
    split_ifs at h <;>
      first
        | (obtain ⟨rfl, rfl⟩ := Prod.mk.injEq .. ▸ h
           exact wb_setError e _)
        | exact ih e _ _ e' res h

theorem parse_romanized_loop_wb (cs : List Record) :
    ∀ (e : Engine) (iid : String) (nm : Name) (e' : Engine) (res : PyResult Name),
    parse_romanized_loop e iid nm cs = (e', res) → WritesBounded e e' res := by
  induction cs with
  | nil =>
    intro e iid nm e' res h
    obtain ⟨rfl, rfl⟩ := Prod.mk.injEq .. ▸ h
    exact wb_pure e _
  | cons c rest ih =>
    intro e iid nm e' res h
    unfold parse_romanized_loop at h
    dsimp only at h
    split_ifs at h <;>
      first
        | (obtain ⟨rfl, rfl⟩ := Prod.mk.injEq .. ▸ h
           exact wb_setError e _)
        | exact ih e _ _ e' res h

theorem parse_name_children_wb (cs : List Record) :
    ∀ (e : Engine) (iid : String) (nr : Record) (nm : Name) (e' : Engine)
      (res : PyResult Name),
    parse_name_children e iid nr nm cs = (e', res) → WritesBounded e e' res := by
  induction cs with
  | nil =>
    intro e iid nr nm e' res h
    obtain ⟨rfl, rfl⟩ := Prod.mk.injEq .. ▸ h
    exact wb_pure e _
  | cons c rest ih =>
    intro e iid nr nm e' res h
    unfold parse_name_children at h
    dsimp only at h
    split_ifs at h <;>
      first
        | (obtain ⟨rfl, rfl⟩ := Prod.mk.injEq .. ▸ h
           exact wb_setError e _)
        | exact ih e _ _ _ e' res h
        | (split at h
           next e1 nm1 heq =>
             exact wb_chain e e1 e' nm1 res (parse_phonetic_loop_wb _ e _ _ e1 _ heq)
               (ih e1 _ _ _ e' res h)
           next e1 heq =>
             obtain ⟨rfl, rfl⟩ := Prod.mk.injEq .. ▸ h
             exact wb_retype _ _ _ _ (parse_phonetic_loop_wb _ e _ _ e1 _ heq)
               (fun _ => rfl)
           next e1 heq =>
             obtain ⟨rfl, rfl⟩ := Prod.mk.injEq .. ▸ h
             exact wb_retype _ _ _ _ (parse_phonetic_loop_wb _ e _ _ e1 _ heq)
               (by simp))
        | (split at h
           next e1 nm1 heq =>
             exact wb_chain e e1 e' nm1 res (parse_romanized_loop_wb _ e _ _ e1 _ heq)
               (ih e1 _ _ _ e' res h)
           next e1 heq =>
             obtain ⟨rfl, rfl⟩ := Prod.mk.injEq .. ▸ h
             exact wb_retype _ _ _ _ (parse_romanized_loop_wb _ e _ _ e1 _ heq)
               (fun _ => rfl)
           next e1 heq =>
             obtain ⟨rfl, rfl⟩ := Prod.mk.injEq .. ▸ h
             exact wb_retype _ _ _ _ (parse_romanized_loop_wb _ e _ _ e1 _ heq)
               (by simp))

theorem parse_event_children_wb (cs : List Record) :
    ∀ (e : Engine) (ev : IndividualEvent) (e' : Engine)
      (res : PyResult IndividualEvent),
    parse_event_children e ev cs = (e', res) → WritesBounded e e' res := by
  induction cs with
  | nil =>
    intro e ev e' res h
    obtain ⟨rfl, rfl⟩ := Prod.mk.injEq .. ▸ h
    exact wb_pure e _
  | cons c rest ih =>
    intro e ev e' res h
    unfold parse_event_children at h
    dsimp only at h
    split_ifs at h <;>
      first
        | (obtain ⟨rfl, rfl⟩ := Prod.mk.injEq .. ▸ h
           exact wb_setError e _)
        | exact ih e _ e' res h
        | (split at h
           next e1 dt heq =>
             exact wb_chain e e1 e' dt res (parse_date_wb e _ e1 _ heq)
               (ih e1 _ e' res h)
           next e1 heq =>
             obtain ⟨rfl, rfl⟩ := Prod.mk.injEq .. ▸ h
             exact wb_retype _ _ _ _ (parse_date_wb e _ e1 _ heq) (fun _ => rfl)
           next e1 heq =>
             obtain ⟨rfl, rfl⟩ := Prod.mk.injEq .. ▸ h
             exact wb_retype _ _ _ _ (parse_date_wb e _ e1 _ heq) (by simp))
        | (split at h
           next e1 a heq =>
             exact wb_chain e e1 e' a res (parse_address_wb e _ e1 _ heq)
               (ih e1 _ e' res h)
           next e1 heq =>
             obtain ⟨rfl, rfl⟩ := Prod.mk.injEq .. ▸ h
             exact wb_retype _ _ _ _ (parse_address_wb e _ e1 _ heq) (fun _ => rfl)
           next e1 heq =>
             obtain ⟨rfl, rfl⟩ := Prod.mk.injEq .. ▸ h
             exact wb_retype _ _ _ _ (parse_address_wb e _ e1 _ heq) (by simp))

theorem parse_indi_children_wb (cs : List Record) :
    ∀ (e : Engine) (rd : Rec) (ind : Individual) (e' : Engine)
      (res : PyResult Individual),
    parse_indi_children e rd ind cs = (e', res) → WritesBounded e e' res := by
  induction cs with
  | nil =>
    intro e rd ind e' res h
    obtain ⟨rfl, rfl⟩ := Prod.mk.injEq .. ▸ h
    exact wb_pure e _
  | cons c rest ih =>
    intro e rd ind e' res h
    unfold parse_indi_children at h
    dsimp only at h
    by_cases h1 : c.data.tag = "NAME"
    · rw [if_pos h1] at h
      split at h
      next e1 nm1 heq =>
        exact wb_chain e e1 e' nm1 res (parse_name_children_wb _ e _ _ _ e1 _ heq)
          (ih e1 _ _ e' res h)
      next e1 heq =>
        obtain ⟨rfl, rfl⟩ := Prod.mk.injEq .. ▸ h
        exact wb_retype _ _ _ _ (parse_name_children_wb _ e _ _ _ e1 _ heq)
          (fun _ => rfl)
      next e1 heq =>
        obtain ⟨rfl, rfl⟩ := Prod.mk.injEq .. ▸ h
        exact wb_retype _ _ _ _ (parse_name_children_wb _ e _ _ _ e1 _ heq) (by simp)
    · rw [if_neg h1] at h
      by_cases h2 : c.data.tag = "SEX"
      · rw [if_pos h2] at h
        split_ifs at h <;>
          first
            | (obtain ⟨rfl, rfl⟩ := Prod.mk.injEq .. ▸ h
               exact wb_setError e _)
            | exact ih e _ _ e' res h
      · rw [if_neg h2] at h
        split at h
        next p _ =>
          split at h
          next e1 ev1 heq =>
            exact wb_chain e e1 e' ev1 res (parse_event_children_wb _ e _ e1 _ heq)
              (ih e1 _ _ e' res h)
          next e1 heq =>
            obtain ⟨rfl, rfl⟩ := Prod.mk.injEq .. ▸ h
            exact wb_retype _ _ _ _ (parse_event_children_wb _ e _ e1 _ heq)
              (fun _ => rfl)
          next e1 heq =>
            obtain ⟨rfl, rfl⟩ := Prod.mk.injEq .. ▸ h
            exact wb_retype _ _ _ _ (parse_event_children_wb _ e _ e1 _ heq)
              (by simp)
        next _ =>
          exact ih e _ _ e' res h

theorem parse_indi_records_go_wb (idxs : List Nat) :
    ∀ (e : Engine) (forest : List Record) (acc : List Individual) (e' : Engine)
      (res : PyResult (List Individual)),
    parse_indi_records_go e forest acc idxs = (e', res) → WritesBounded e e' res := by
  induction idxs with
  | nil =>
    intro e forest acc e' res h
    obtain ⟨rfl, rfl⟩ := Prod.mk.injEq .. ▸ h
    exact wb_pure e _
  | cons i rest ih =>
    intro e forest acc e' res h
    unfold parse_indi_records_go at h
    split at h
    · obtain ⟨rfl, rfl⟩ := Prod.mk.injEq .. ▸ h
      exact wb_pure e _
    next node _ =>
      dsimp only at h
      split at h
      next e1 ind1 heq =>
        refine wb_chain e { e1 with indiBuilt := e1.indiBuilt ++ [(i, ind1)] } e'
          ind1 res ?_ (ih _ forest _ e' res h)
        exact Or.inl (wb_ok_elim e e1 ind1
          (parse_indi_children_wb _ e _ _ e1 _ heq))
      next e1 heq =>
        obtain ⟨rfl, rfl⟩ := Prod.mk.injEq .. ▸ h
        exact wb_retype _ _ _ _ (parse_indi_children_wb _ e _ _ e1 _ heq)
          (fun _ => rfl)
      next e1 heq =>
        obtain ⟨rfl, rfl⟩ := Prod.mk.injEq .. ▸ h
        exact wb_retype _ _ _ _ (parse_indi_children_wb _ e _ _ e1 _ heq) (by simp)

theorem parse_indi_records_wb (e : Engine) (forest : List Record) (e' : Engine)
    (res : PyResult (List Individual)) (h : parse_indi_records e forest = (e', res)) :
    WritesBounded e e' res :=
  parse_indi_records_go_wb e.indiRecords e forest [] e' res h

theorem parse_fam_child_wb (e : Engine) (famId : String) (fam : Family)
    (child : Record) (e' : Engine) (res : PyResult Family)
    (h : parse_fam_child e famId fam child = (e', res)) : WritesBounded e e' res := by
  unfold parse_fam_child at h
  dsimp only at h
  split_ifs at h <;>
    first
      | (obtain ⟨rfl, rfl⟩ := Prod.mk.injEq .. ▸ h
         first
           | exact wb_setError e _
           | exact wb_pure e _)
      | (split at h <;>
          first
            | (obtain ⟨rfl, rfl⟩ := Prod.mk.injEq .. ▸ h
               first
                 | exact wb_setError e _
                 | exact wb_pure e _)
            | (split at h <;>
                (obtain ⟨rfl, rfl⟩ := Prod.mk.injEq .. ▸ h
                 first
                   | exact wb_setError e _
                   | exact wb_pure e _)))

theorem parse_fam_children_wb (cs : List Record) :
    ∀ (e : Engine) (famId : String) (fam : Family) (e' : Engine)
      (res : PyResult Family),
    parse_fam_children e famId fam cs = (e', res) → WritesBounded e e' res := by
  induction cs with
  | nil =>
    intro e famId fam e' res h
    obtain ⟨rfl, rfl⟩ := Prod.mk.injEq .. ▸ h
    exact wb_pure e _
  | cons c rest ih =>
    intro e famId fam e' res h
    unfold parse_fam_children at h
    split at h
    next e1 f1 heq =>
      exact wb_chain e e1 e' f1 res (parse_fam_child_wb e _ _ _ e1 _ heq)
        (ih e1 _ _ e' res h)
    next e1 heq =>
      obtain ⟨rfl, rfl⟩ := Prod.mk.injEq .. ▸ h
      exact wb_retype _ _ _ _ (parse_fam_child_wb e _ _ _ e1 _ heq) (fun _ => rfl)
    next e1 heq =>
      obtain ⟨rfl, rfl⟩ := Prod.mk.injEq .. ▸ h
      exact wb_retype _ _ _ _ (parse_fam_child_wb e _ _ _ e1 _ heq) (by simp)

theorem parse_fam_records_go_wb (idxs : List Nat) :
    ∀ (e : Engine) (forest : List Record) (acc : List Family) (e' : Engine)
      (res : PyResult (List Family)),
    parse_fam_records_go e forest acc idxs = (e', res) → WritesBounded e e' res := by
  induction idxs with
  | nil =>
    intro e forest acc e' res h
    obtain ⟨rfl, rfl⟩ := Prod.mk.injEq .. ▸ h
    exact wb_pure e _
  | cons i rest ih =>
    intro e forest acc e' res h
    unfold parse_fam_records_go at h
    split at h
    · obtain ⟨rfl, rfl⟩ := Prod.mk.injEq .. ▸ h
      exact wb_pure e _
    next node _ =>
      split at h
      next e1 f heq =>
        exact wb_chain e e1 e' f res (parse_fam_children_wb _ e _ _ e1 _ heq)
          (ih e1 forest _ e' res h)
      next e1 heq =>
        obtain ⟨rfl, rfl⟩ := Prod.mk.injEq .. ▸ h
        exact wb_retype _ _ _ _ (parse_fam_children_wb _ e _ _ e1 _ heq)
          (fun _ => rfl)
      next e1 heq =>
        obtain ⟨rfl, rfl⟩ := Prod.mk.injEq .. ▸ h
        exact wb_retype _ _ _ _ (parse_fam_children_wb _ e _ _ e1 _ heq) (by simp)

theorem parse_fam_records_wb (e : Engine) (forest : List Record) (e' : Engine)
    (res : PyResult (List Family)) (h : parse_fam_records e forest = (e', res)) :
    WritesBounded e e' res :=
  parse_fam_records_go_wb e.famRecords e forest [] e' res h

/-- How `run` transforms a no-error engine through a stage whose writes are
bounded: a successful run leaves the error slot empty and the write count
unchanged; an exiting run adds at most one write; a crash adds none. -/
theorem run_ok_state {α : Type} (e : Engine) (f : Engine → Engine × PyResult α)
    (he : e.error = Option.none)
    (hf : ∀ e1 res, f e = (e1, res) → WritesBounded e e1 res) :
    (∀ e1 r, run e f = RunOut.ok e1 r →
        e1.errorWrites = e.errorWrites ∧ e1.error = Option.none) ∧
    (∀ e1, run e f = RunOut.exit e1 → e1.errorWrites ≤ e.errorWrites + 1) ∧
    (∀ e1, run e f = RunOut.crash e1 → e1.errorWrites = e.errorWrites) := by
  unfold run
  rw [if_pos (by simp [he])]
  rcases hfe : f e with ⟨e1, r⟩
  have hwb := hf e1 r hfe
  cases r with
  | ok a =>
    dsimp only
    obtain ⟨hw, herr⟩ := wb_ok_elim e e1 a hwb
    by_cases h1 : e1.error.isNone = true
    · rw [if_pos h1]
      refine ⟨?_, ?_, ?_⟩
      · intro e2 r2 hr
        obtain ⟨rfl, -⟩ := RunOut.ok.injEq .. ▸ hr
        exact ⟨hw, Option.isNone_iff_eq_none.mp h1⟩
      · intro e2 hr
        exact RunOut.noConfusion hr
      · intro e2 hr
        exact RunOut.noConfusion hr
    · rw [if_neg h1]
      refine ⟨?_, ?_, ?_⟩
      · intro e2 r2 hr
        exact RunOut.noConfusion hr
      · intro e2 hr
        obtain rfl := RunOut.exit.injEq .. ▸ hr
        omega
      · intro e2 hr
        exact RunOut.noConfusion hr
  | none =>
    dsimp only
    by_cases h1 : e1.error.isNone = true
    · rw [if_pos h1]
      rcases hwb with ⟨hw, herr⟩ | ⟨-, hw, hsome⟩
      · refine ⟨?_, ?_, ?_⟩
        · intro e2 r2 hr
          obtain ⟨rfl, -⟩ := RunOut.ok.injEq .. ▸ hr
          exact ⟨hw, Option.isNone_iff_eq_none.mp h1⟩
        · intro e2 hr
          exact RunOut.noConfusion hr
        · intro e2 hr
          exact RunOut.noConfusion hr
      · rw [Option.isNone_iff_eq_none] at h1
        rw [h1] at hsome
        exact absurd hsome (by simp)
    · rw [if_neg h1]
      refine ⟨?_, ?_, ?_⟩
      · intro e2 r2 hr
        exact RunOut.noConfusion hr
      · intro e2 hr
        obtain rfl := RunOut.exit.injEq .. ▸ hr
        rcases hwb with ⟨hw, -⟩ | ⟨-, hw, -⟩ <;> omega
      · intro e2 hr
        exact RunOut.noConfusion hr
  | crash =>
    dsimp only
    obtain ⟨hw, herr⟩ := wb_crash_elim e e1 hwb
    refine ⟨?_, ?_, ?_⟩
    · intro e2 r2 hr
      exact RunOut.noConfusion hr
    · intro e2 hr
      exact RunOut.noConfusion hr
    · intro e2 hr
      obtain rfl := RunOut.crash.injEq .. ▸ hr
      exact hw

/-- Across File.__init__'s four run calls, the fatal-error slot is assigned
at most once: every stage either leaves it untouched or performs the single
write after which run exits. -/
theorem pipeline_error_writes (lines : List String) :
    (pipeEngine (pipeline lines)).errorWrites ≤ 1 := by
  unfold pipeline
  have hz : ({} : Engine).errorWrites = 0 := rfl
  obtain ⟨hok1, hexit1, hcrash1⟩ :=
    run_ok_state {} (fun e => parse_raw_lines e lines) rfl
      (fun e1 res h => parse_raw_lines_wb _ lines e1 res h)
  cases hrun1 : run {} (fun e => parse_raw_lines e lines) with
  | exit e =>
    have h1 := hexit1 e hrun1
    simp only [hrun1, pipeEngine]
    omega
  | crash e =>
    have h1 := hcrash1 e hrun1
    simp only [hrun1, pipeEngine]
    omega
  | ok e recordsOpt =>
    obtain ⟨hw1, he1⟩ := hok1 e recordsOpt hrun1
    simp only [hrun1]
    obtain ⟨hok2, hexit2, hcrash2⟩ :=
      run_ok_state e (fun e2 => parse_header e2 (recordsOpt.getD [])) he1
        (fun e1 res h => parse_header_wb _ _ e1 res h)
    cases hrun2 : run e (fun e2 => parse_header e2 (recordsOpt.getD [])) with
    | exit e2 =>
      have h2 := hexit2 e2 hrun2
      simp only [hrun2, pipeEngine]
      omega
    | crash e2 =>
      have h2 := hcrash2 e2 hrun2
      simp only [hrun2, pipeEngine]
      omega
    | ok e2 r2 =>
      obtain ⟨hw2, he2⟩ := hok2 e2 r2 hrun2
      simp only [hrun2]
      obtain ⟨hok3, hexit3, hcrash3⟩ :=
        run_ok_state e2 (fun e3 => parse_indi_records e3 (recordsOpt.getD [])) he2
          (fun e1 res h => parse_indi_records_wb _ _ e1 res h)
      cases hrun3 : run e2 (fun e3 => parse_indi_records e3 (recordsOpt.getD [])) with
      | exit e3 =>
        have h3 := hexit3 e3 hrun3
        simp only [pipeEngine]
        omega
      | crash e3 =>
        have h3 := hcrash3 e3 hrun3
        simp only [pipeEngine]
        omega
      | ok e3 r3 =>
        obtain ⟨hw3, he3⟩ := hok3 e3 r3 hrun3
        simp only [hrun3]
        obtain ⟨hok4, hexit4, hcrash4⟩ :=
          run_ok_state e3 (fun e4 => parse_fam_records e4 (recordsOpt.getD [])) he3
            (fun e1 res h => parse_fam_records_wb _ _ e1 res h)
        cases hrun4 : run e3 (fun e4 => parse_fam_records e4 (recordsOpt.getD [])) with
        | exit e4 =>
          have h4 := hexit4 e4 hrun4
          simp only [pipeEngine]
          omega
        | crash e4 =>
          have h4 := hcrash4 e4 hrun4
          simp only [pipeEngine]
          omega
        | ok e4 r4 =>
          obtain ⟨hw4, -⟩ := hok4 e4 r4 hrun4
          simp only [hrun4, pipeEngine]
          omega

/-- C6: the fatal error slot behaves first-writer-wins: once an error is
recorded, ParseEngine.run refuses to execute any later stage (so the slot is
never reassigned by one), and along File.__init__'s whole four-stage pipeline
the slot is written at most once — each stage either leaves it untouched or
performs the single write that makes run exit with the diagnostics dumped. -/
theorem error_slot_first_writer_wins :
    (∀ (α : Type) (e : Engine) (f : Engine → Engine × PyResult α),
        e.error.isSome = true → run e f = RunOut.ok e Option.none) ∧
    (∀ lines : List String, (pipeEngine (pipeline lines)).errorWrites ≤ 1) := by
  constructor
  · intro α e f he
    have hfalse : e.error.isNone = false := by
      cases hE : e.error with
      | none =>
        rw [hE] at he
        exact absurd he (by simp)
      | some v =>
        rfl
    unfold run
    rw [if_neg (by simp [hfalse])]
  · exact pipeline_error_writes

theorem error_slot_first_writer_wins_witness :
    (({ error := some "boom" } : Engine)).error.isSome = true ∧
    run ({ error := some "boom" } : Engine) (fun e => parse_raw_lines e ["0 HEAD"]) =
      RunOut.ok ({ error := some "boom" } : Engine) Option.none ∧
    (pipeEngine (pipeline ["0 HEAD", "0 TRLR"])).errorWrites ≤ 1 :=
  ⟨rfl,
    error_slot_first_writer_wins.1 (List Record) { error := some "boom" }
      (fun e => parse_raw_lines e ["0 HEAD"]) rfl,
    error_slot_first_writer_wins.2 ["0 HEAD", "0 TRLR"]⟩
